import Mathlib

/-!
# go-engine.io: session engine and server front-end

A shallow embedding of `server.go`, `session.go` and `transport/websocket/conn.go`.
Stateful Go code is written as explicit state passing.  Objects that live outside
the repository sources (the transport behind a `base.Conn`, the HTTP response writer,
the clock, MD5) are represented by scripted or parameterised environments.

Part I   : `Server.newId`, `Server.ServeHTTP`.
Part II  : `session` (`Close`, `nextReader`, `nextWriter`, `NextReader`, `setDeadline`,
           `upgrading`).
Part III : theorems.
-/

namespace engineio

/-! ## Part I. server.go -/

/-- A `[16]byte` value, the result type of `md5.Sum`. -/
abbrev Digest := Fin 16 → Fin 256

/-- The alphabet of Go's `base64.URLEncoding` (`encodeURL` in `encoding/base64`). -/
def encodeURL : List Char :=
  "ABCDEFGHIJKLMNOPQRSTUVWXYZabcdefghijklmnopqrstuvwxyz0123456789-_".toList

/-- Table lookup `enc.encode[i]`. -/
def encodeChar (i : Nat) : Char := encodeURL.getD i 'A'

/-- Go's `base64.URLEncoding` applied to a byte string (padding character `=`):
three input bytes give four output characters, a remainder of one or two bytes is
padded.  Writing to `base64.NewEncoder(base64.URLEncoding, buf)` and closing it
leaves exactly this text in `buf`. -/
def base64URLEncode : List (Fin 256) → List Char
  | [] => []
  | [a] =>
    let val := a.val <<< 16
    [encodeChar (val >>> 18 &&& 0x3F), encodeChar (val >>> 12 &&& 0x3F), '=', '=']
  | [a, b] =>
    let val := a.val <<< 16 ||| b.val <<< 8
    [encodeChar (val >>> 18 &&& 0x3F), encodeChar (val >>> 12 &&& 0x3F),
      encodeChar (val >>> 6 &&& 0x3F), '=']
  | a :: b :: c :: rest =>
    let val := a.val <<< 16 ||| b.val <<< 8 ||| c.val
    encodeChar (val >>> 18 &&& 0x3F) :: encodeChar (val >>> 12 &&& 0x3F)
      :: encodeChar (val >>> 6 &&& 0x3F) :: encodeChar (val &&& 0x3F)
      :: base64URLEncode rest

/-- The Go slice expression `s[:n]` on a string of one-byte characters: it panics
(`none`) when `n` exceeds the length. -/
def sliceTo (s : List Char) (n : Nat) : Option (List Char) :=
  if n ≤ s.length then some (s.take n) else none

/-- Membership in the URL-safe base64 alphabet `A-Z a-z 0-9 - _`. -/
def isURLSafeChar (c : Char) : Bool :=
  ('A' ≤ c && c ≤ 'Z') || ('a' ≤ c && c ≤ 'z') || ('0' ≤ c && c ≤ '9') || c == '-' || c == '_'

/-- The parts of `*http.Request` that `ServeHTTP` looks at. -/
structure Request where
  /-- The value of `r.URL.Query().Get("sid")`. -/
  sid : String
  /-- The field `r.RemoteAddr`. -/
  RemoteAddr : String
  /-- The cookies `r.Cookies()`, each as rendered by `c.String()`. -/
  cookies : List String
  deriving DecidableEq, Repr

/-- An `http.ResponseWriter`: header map, status code once written, body. -/
structure ResponseWriter where
  header : List (String × String) := []
  status : Option Nat := none
  body : String := ""
  deriving DecidableEq, Repr

/-- The method `w.Header().Set(key, value)`. -/
def ResponseWriter.setHeader (w : ResponseWriter) (key value : String) : ResponseWriter :=
  { w with header := (key, value) :: w.header.filter (fun kv => kv.1 != key) }

/-- Go's `http.Error(w, msg, code)`: plain-text headers, the status code and the message
followed by a newline. -/
def httpError (w : ResponseWriter) (msg : String) (code : Nat) : ResponseWriter :=
  let w := w.setHeader "Content-Type" "text/plain; charset=utf-8"
  let w := w.setHeader "X-Content-Type-Options" "nosniff"
  { w with status := some code, body := w.body ++ msg ++ "\n" }

/-- The status `http.StatusBadRequest`. -/
def StatusBadRequest : Nat := 400

/-- Modelled from the spec: the value `newServerConn` returns (its definition is not among
the sources); `id` is the session id it was created with and `serial` tells two conn
objects created with the same id apart. -/
structure serverConn where
  id : String
  serial : Nat
  deriving DecidableEq, Repr

/-- Modelled from the spec: the type `serverSessions`, a map from session id to conn
(its definition is not among the sources), kept as an association list without
repeated keys. -/
abbrev serverSessions := List (String × serverConn)

/-- Modelled from the spec: the lookup `serverSessions.Get`, `nil` (`none`) for an unknown id. -/
def serverSessions.Get (m : serverSessions) (sid : String) : Option serverConn :=
  (m.find? (fun kv => kv.1 == sid)).map Prod.snd

/-- Modelled from the spec: the map assignment `serverSessions.Set`; an existing entry
under the same id is replaced. -/
def serverSessions.Set (m : serverSessions) (sid : String) (c : serverConn) : serverSessions :=
  (sid, c) :: m.filter (fun kv => kv.1 != sid)

/-- Modelled from the spec: the map deletion `serverSessions.Remove`. -/
def serverSessions.Remove (m : serverSessions) (sid : String) : serverSessions :=
  m.filter (fun kv => kv.1 != sid)

/-- The struct `config`, restricted to the fields `ServeHTTP` reads.  The value of
`AllowRequest` is `none` for a `nil` error and `some msg` for an error whose
`Error()` text is `msg`. -/
structure config where
  AllowRequest : Request → Option String
  AccessControl : Request → String × String × String × String × Int
  Cookie : String

/-- The struct `Server`.  The channel `socketChan` is kept as the list of conns sent on
it so far, oldest first (the order in which `Accept` receives them). -/
structure Server where
  config : config
  socketChan : List serverConn
  serverSessions : serverSessions

/-- What a request handler depends on besides the server and the request: the clock,
the hash function and the constructor `newServerConn` (not among the sources). -/
structure Env where
  /-- The text of `time.Now()` as formatted by `%s`. -/
  now : String
  /-- The function `md5.Sum`, taken as an arbitrary function to 16 bytes. -/
  md5Sum : String → Digest
  /-- The result of `newServerConn(sid, w, r, s)`: a conn or an error text. -/
  newServerConn : String → Request → Except String Nat

/-- `NewServer`: default configuration, no sessions, nothing sent on the channel. -/
def NewServer : Server :=
  { config :=
      { AllowRequest := fun _ => none
        AccessControl := fun _ => ("", "", "", "", -1)
        Cookie := "io" }
    socketChan := []
    serverSessions := [] }

/-- `Server.SetAllowRequest`. -/
def Server.SetAllowRequest (s : Server) (f : Request → Option String) : Server :=
  { s with config := { s.config with AllowRequest := f } }

/-- `Server.onClose`. -/
def Server.onClose (s : Server) (id : String) : Server :=
  { s with serverSessions := s.serverSessions.Remove id }

/-- `Server.newId`: MD5 of `"<RemoteAddr> <time.Now()>"`, URL-safe base64, first 20
characters.  The result is `none` when the slice `[:20]` is out of range. -/
def Server.newId (env : Env) (r : Request) : Option String :=
  let hash := r.RemoteAddr ++ " " ++ env.now
  let sum := env.md5Sum hash
  let buf := base64URLEncode (List.ofFn sum)
  (sliceTo buf 20).map String.mk

/-- `Server.setAccessControlHeaders`. -/
def Server.setAccessControlHeaders (w : ResponseWriter) (r : Request)
    (f : Request → String × String × String × String × Int) : ResponseWriter :=
  let (origin, credentials, methods, headers, maxAge) := f r
  let w := if origin != "" then w.setHeader "Access-Control-Allow-Origin" origin else w
  let w := if credentials != "" then
    w.setHeader "Access-Control-Allow-Credentials" credentials else w
  let w := if methods != "" then w.setHeader "Access-Control-Allow-Methods" methods else w
  let w := if headers != "" then w.setHeader "Access-Control-Allow-Headers" headers else w
  if maxAge > 0 then w.setHeader "Access-Control-Max-Age" (toString maxAge) else w

/-- What one call of `ServeHTTP` leaves behind: the response writer, the server, and the
conn whose `ServeHTTP` handler was invoked, if any. -/
structure Served where
  w : ResponseWriter
  server : Server
  handler : Option serverConn

/-- The tail of `ServeHTTP` after the `if conn == nil` block: one `Set-Cookie` per cookie
(each overwriting the last), the access-control headers, then the conn's handler. -/
def Server.finish (s : Server) (w : ResponseWriter) (r : Request) (cookies : List String)
    (conn : serverConn) : Served :=
  let w := cookies.foldl (fun w c => w.setHeader "Set-Cookie" c) w
  let w := Server.setAccessControlHeaders w r s.config.AccessControl
  { w := w, server := s, handler := some conn }

/-- `Server.ServeHTTP`.  The result is `none` when the handler panics (an out-of-range
slice in `newId`). -/
def Server.ServeHTTP (env : Env) (s : Server) (w : ResponseWriter) (r : Request) :
    Option Served :=
  let cookies := r.cookies
  let sid := r.sid
  match s.serverSessions.Get sid with
  | some conn => some (s.finish w r cookies conn)
  | none =>
    if sid != "" then
      some { w := httpError w "invalid sid" StatusBadRequest, server := s, handler := none }
    else
      match s.config.AllowRequest r with
      | some err => some { w := httpError w err StatusBadRequest, server := s, handler := none }
      | none =>
        match Server.newId env r with
        | none => none
        | some sid =>
          match env.newServerConn sid r with
          | .error err =>
            some { w := httpError w err StatusBadRequest, server := s, handler := none }
          | .ok serial =>
            let conn : serverConn := { id := sid, serial := serial }
            let s := { s with serverSessions := s.serverSessions.Set sid conn }
            let cookies := cookies ++ [s.config.Cookie ++ "=" ++ sid]
            let s := { s with socketChan := s.socketChan ++ [conn] }
            some (s.finish w r cookies conn)

/-- Every key of the session map is 20 characters long: the invariant of the states a
server reaches from `NewServer`. -/
def Server.idsWellFormed (s : Server) : Prop :=
  ∀ kv ∈ s.serverSessions, kv.1.length = 20

/-- A clock reading and hash function for worked examples: every digest is all zero. -/
def exampleEnv (serial : Nat) : Env :=
  { now := "2026-01-01 00:00:00.000000001 +0000 UTC m=+1.000000001"
    md5Sum := fun _ _ => 0
    newServerConn := fun _ _ => .ok serial }

/-- A first request of a client: no `sid`. -/
def exampleRequest : Request := { sid := "", RemoteAddr := "10.0.0.1:4000", cookies := [] }

/-- The server after one session has been created from `exampleRequest`. -/
def exampleServer : Server :=
  match Server.ServeHTTP (exampleEnv 1) NewServer {} exampleRequest with
  | some res => res.server
  | none => NewServer

/-! ## Part II. session.go -/

/-- The type `base.FrameType`: the frame kind of a packet. -/
inductive FrameType where
  | TEXT
  | BINARY
  deriving DecidableEq, Repr

/-- The type `base.PacketType`, in the order of the protocol digits 0..6. -/
inductive PacketType where
  | OPEN
  | CLOSE
  | PING
  | PONG
  | MESSAGE
  | UPGRADE
  | NOOP
  deriving DecidableEq, Repr

/-- A Go `error` value that is not `nil`: a `payload.Error` with its `Temporary()` flag,
the sentinel `io.EOF`, or any other error. -/
inductive Err where
  | payload (temporary : Bool) (msg : String)
  | EOF
  | other (msg : String)
  deriving DecidableEq, Repr

/-- The test `op, ok := err.(payload.Error); ok && op.Temporary()`. -/
def Err.isTemporary : Err → Bool
  | .payload t _ => t
  | _ => false

/-- The error a transport reports once its peer is gone. -/
def Err.closed : Err := .other "use of closed network connection"

/-- A packet as committed to a transport by closing a writer. -/
structure Packet where
  ft : FrameType
  pt : PacketType
  body : List Nat
  deriving DecidableEq, Repr

/-- An inbound packet: frame kind, packet type, body bytes, and the error (if any) that
closing its reader reports. -/
structure InPacket where
  ft : FrameType
  pt : PacketType
  body : List Nat
  closeErr : Option Err := none
  deriving DecidableEq, Repr

/-- The outcome of one call of a transport's `NextReader`. -/
inductive ReadOutcome where
  | fail (e : Err)
  | deliver (p : InPacket)
  deriving DecidableEq, Repr

/-- The outcome of one call of a transport's `NextWriter`: an error, or a writer together
with the fate of what is done with it - `copyFail = some (n, e)` makes an `io.Copy` into
it stop with error `e` after `n` bytes, `closeErr` is the result of its `Close`. -/
inductive WriteOutcome where
  | fail (e : Err)
  | writer (copyFail : Option (Nat × Err)) (closeErr : Option Err)
  deriving DecidableEq, Repr

/-- An `io.ReadCloser` over one packet body.  `locker` is set by `newReader`: the reader
then holds the read side of `upgradeLocker` until it is closed. -/
structure Reader where
  conn : Nat
  body : List Nat
  closeErr : Option Err
  closed : Bool
  locker : Bool
  deriving DecidableEq, Repr

/-- An `io.WriteCloser` for one packet; the bytes written so far are in `buf` and the
packet is committed by `Close`.  `locker` is set by `newWriter`: the writer then holds
`writeLocker` until it is closed. -/
structure Writer where
  conn : Nat
  ft : FrameType
  pt : PacketType
  buf : List Nat
  copyFail : Option (Nat × Err)
  closeErr : Option Err
  locker : Bool
  deriving DecidableEq, Repr

/-- A `base.Conn`.  The transport behind it is scripted: `reads`, `writes` and `closes`
give the outcomes of the coming calls of `NextReader`, `NextWriter` and the socket's
`Close`.  When `reads` is used up the peer is gone and `NextReader` fails with
`Err.closed`; when `writes` or `closes` is used up the call succeeds.  The remaining
fields record what has been done to the conn. -/
structure Conn where
  /-- Identity of the object (Go compares conns by pointer). -/
  id : Nat
  /-- Whether the conn implements `transport.Pauser`. -/
  pauser : Bool
  reads : List ReadOutcome
  writes : List WriteOutcome
  closes : List (Option Err)
  /-- Number of `NextReader` calls made. -/
  readCalls : Nat := 0
  /-- Number of `NextWriter` calls made. -/
  writeCalls : Nat := 0
  /-- Packets committed, oldest first. -/
  written : List Packet := []
  readDeadline : Option Nat := none
  writeDeadline : Option Nat := none
  /-- The `sync.Once` of `conn.Close` and the channel `closed` it closes. -/
  closeOnce : Bool := false
  closed : Bool := false
  /-- Number of `Close` calls made. -/
  closeCalls : Nat := 0
  pauseCalls : Nat := 0
  resumeCalls : Nat := 0
  paused : Bool := false
  deriving DecidableEq, Repr

/-- What the session does to its environment, in order. -/
inductive Event where
  | RLock
  | RUnlock
  | Lock
  | Unlock
  | WriteLock
  | WriteUnlock
  | Remove (sid : String)
  | ConnNextReader (conn : Nat)
  | ConnNextWriter (conn : Nat) (ft : FrameType) (pt : PacketType)
  | ReaderClose (conn : Nat)
  | WriterClose (conn : Nat) (p : Packet) (committed : Bool)
  | SetReadDeadline (conn : Nat) (t : Nat)
  | SetWriteDeadline (conn : Nat) (t : Nat)
  | ConnClose (conn : Nat)
  | Pause (conn : Nat)
  | Resume (conn : Nat)
  | SetConn (conn : Nat)
  | SetTransport (t : String)
  | Sleep (ms : Nat)
  deriving DecidableEq, Repr

/-- A `sync.RWMutex`, as counters of the calls made on it (one thread of control: a
call never blocks). -/
structure RWMutex where
  rlocks : Nat := 0
  runlocks : Nat := 0
  locks : Nat := 0
  unlocks : Nat := 0
  deriving DecidableEq, Repr

/-- The struct `session`, with the parts of its environment that its methods act on:
the ids registered in the manager, the clock (milliseconds) and the log of events. -/
structure session where
  /-- The field `params.SID`. -/
  SID : String
  /-- The field `params.PingTimeout`, in milliseconds. -/
  PingTimeout : Nat
  /-- Modelled from the spec: the ids in the map of the `manager` (its definition is not
  among the sources). -/
  manager : List String
  /-- Number of `manager.Remove` calls made by this session. -/
  removeCalls : Nat := 0
  closeOnce : Bool := false
  writeLocker : RWMutex := {}
  upgradeLocker : RWMutex := {}
  transport : String
  conn : Conn
  /-- The reading of `time.Now()`, in milliseconds. -/
  now : Nat := 0
  log : List Event := []
  deriving DecidableEq, Repr

/-- `conn.NextReader()` on the scripted transport. -/
def Conn.NextReader (c : Conn) : Except Err (FrameType × PacketType × Reader) × Conn :=
  match c.reads with
  | [] => (.error Err.closed, { c with readCalls := c.readCalls + 1 })
  | .fail e :: rest => (.error e, { c with reads := rest, readCalls := c.readCalls + 1 })
  | .deliver p :: rest =>
    (.ok (p.ft, p.pt,
        { conn := c.id, body := p.body, closeErr := p.closeErr, closed := false,
          locker := false }),
      { c with reads := rest, readCalls := c.readCalls + 1 })

/-- `conn.NextWriter(ft, pt)` on the scripted transport. -/
def Conn.NextWriter (c : Conn) (ft : FrameType) (pt : PacketType) :
    Except Err Writer × Conn :=
  match c.writes with
  | [] =>
    (.ok { conn := c.id, ft := ft, pt := pt, buf := [], copyFail := none, closeErr := none,
           locker := false },
      { c with writeCalls := c.writeCalls + 1 })
  | .fail e :: rest => (.error e, { c with writes := rest, writeCalls := c.writeCalls + 1 })
  | .writer copyFail closeErr :: rest =>
    (.ok { conn := c.id, ft := ft, pt := pt, buf := [], copyFail := copyFail,
           closeErr := closeErr, locker := false },
      { c with writes := rest, writeCalls := c.writeCalls + 1 })

/-- Closing a writer of the transport: the packet is committed unless `Close` fails. -/
def Conn.closeWriter (c : Conn) (w : Writer) : Option Err × Conn :=
  match w.closeErr with
  | some e => (some e, c)
  | none => (none, { c with written := c.written ++ [{ ft := w.ft, pt := w.pt, body := w.buf }] })

/-- `conn.Close()` of `transport/websocket/conn.go`: the channel `closed` is closed under
`closeOnce`, and the result of the socket's `Close` is returned on every call. -/
def Conn.Close (c : Conn) : Option Err × Conn :=
  let c := if c.closeOnce then c else { c with closeOnce := true, closed := true }
  match c.closes with
  | [] => (none, { c with closeCalls := c.closeCalls + 1 })
  | e :: rest => (e, { c with closes := rest, closeCalls := c.closeCalls + 1 })

/-- `conn.SetReadDeadline(t)`. -/
def Conn.SetReadDeadline (c : Conn) (t : Nat) : Conn := { c with readDeadline := some t }

/-- `conn.SetWriteDeadline(t)`. -/
def Conn.SetWriteDeadline (c : Conn) (t : Nat) : Conn := { c with writeDeadline := some t }

/-- `Pause()` of a `transport.Pauser`. -/
def Conn.Pause (c : Conn) : Conn := { c with pauseCalls := c.pauseCalls + 1, paused := true }

/-- `Resume()` of a `transport.Pauser`. -/
def Conn.Resume (c : Conn) : Conn :=
  { c with resumeCalls := c.resumeCalls + 1, paused := false }

/-- `io.Copy(w, r)`: the unread bytes of `r` are appended to `w`, up to the point where the
writer's script makes the copy fail.  A reader that has been closed has no bytes left. -/
def ioCopy (w : Writer) (r : Reader) : Writer × Reader × Option Err :=
  let src := if r.closed then [] else r.body
  match w.copyFail with
  | none => ({ w with buf := w.buf ++ src }, { r with body := [] }, none)
  | some (n, e) =>
    ({ w with buf := w.buf ++ src.take n }, { r with body := src.drop n }, some e)

/-- Append an event to the log. -/
def session.emit (s : session) (e : Event) : session := { s with log := s.log ++ [e] }

/-- `s.upgradeLocker.RLock()`. -/
def session.RLock (s : session) : session :=
  { s with upgradeLocker := { s.upgradeLocker with rlocks := s.upgradeLocker.rlocks + 1 },
           log := s.log ++ [.RLock] }

/-- `s.upgradeLocker.RUnlock()`. -/
def session.RUnlock (s : session) : session :=
  { s with upgradeLocker := { s.upgradeLocker with runlocks := s.upgradeLocker.runlocks + 1 },
           log := s.log ++ [.RUnlock] }

/-- `s.upgradeLocker.Lock()`. -/
def session.Lock (s : session) : session :=
  { s with upgradeLocker := { s.upgradeLocker with locks := s.upgradeLocker.locks + 1 },
           log := s.log ++ [.Lock] }

/-- `s.upgradeLocker.Unlock()`. -/
def session.Unlock (s : session) : session :=
  { s with upgradeLocker := { s.upgradeLocker with unlocks := s.upgradeLocker.unlocks + 1 },
           log := s.log ++ [.Unlock] }

/-- `s.writeLocker.Lock()`. -/
def session.WriteLock (s : session) : session :=
  { s with writeLocker := { s.writeLocker with locks := s.writeLocker.locks + 1 },
           log := s.log ++ [.WriteLock] }

/-- `s.writeLocker.Unlock()`. -/
def session.WriteUnlock (s : session) : session :=
  { s with writeLocker := { s.writeLocker with unlocks := s.writeLocker.unlocks + 1 },
           log := s.log ++ [.WriteUnlock] }

/-- `time.Sleep(ms * time.Millisecond)`. -/
def session.Sleep (s : session) (ms : Nat) : session :=
  { s with now := s.now + ms, log := s.log ++ [.Sleep ms] }

/-- Modelled from the spec: `manager.Remove(id)` (the manager is not among the sources)
deletes the id from the map. -/
def session.managerRemove (s : session) (id : String) : session :=
  { s with manager := s.manager.filter (fun k => k != id),
           removeCalls := s.removeCalls + 1,
           log := s.log ++ [.Remove id] }

/-- Modelled from the spec: `newReader(r, &s.upgradeLocker)` (not among the sources), the
adapter whose `Close` releases the read lock taken by `nextReader`. -/
def newReader (r : Reader) : Reader := { r with locker := true }

/-- Modelled from the spec: `newWriter(w, &s.writeLocker)` (not among the sources), the
adapter whose `Close` releases `writeLocker`. -/
def newWriter (w : Writer) : Writer := { w with locker := true }

/-- `r.Close()`.  A reader holds its lock from creation until `Close`, so only the first
`Close` closes the packet reader and releases the lock; later calls return `nil`. -/
def session.closeReader (s : session) (r : Reader) : Option Err × Reader × session :=
  if r.closed then (none, r, s)
  else
    let s := if r.locker then s.RUnlock else s
    (r.closeErr, { r with closed := true }, s.emit (.ReaderClose r.conn))

/-- `w.Close()` for a writer of the active conn: the packet is committed to the conn (or
the error reported) and the adapter releases `writeLocker`. -/
def session.closeWriter (s : session) (w : Writer) : Option Err × session :=
  let (err, c) := s.conn.closeWriter w
  let s := { s with conn := c }.emit
    (.WriterClose c.id { ft := w.ft, pt := w.pt, body := w.buf } err.isNone)
  let s := if w.locker then s.WriteUnlock else s
  (err, s)

/-- `session.Close`. -/
def session.Close (s : session) : Option Err × session :=
  let s := s.RLock
  let s := if s.closeOnce then s else { s.managerRemove s.SID with closeOnce := true }
  let (err, c) := s.conn.Close
  let s := { s with conn := c }.emit (.ConnClose c.id)
  let s := s.RUnlock
  (err, s)

/-- The loop of `session.nextReader`; `n` is the number of iterations left and `err` the
current value of the variable `err` (`none` for `nil`). -/
def session.nextReaderLoop :
    Nat → Option Err → session →
      Except (Option Err) (FrameType × PacketType × Reader) × session
  | 0, err, s => (.error err, s)
  | n + 1, _, s =>
    let s := s.RLock
    let (res, c) := s.conn.NextReader
    let s := { s with conn := c }.emit (.ConnNextReader c.id)
    match res with
    | .error err =>
      let s := s.RUnlock
      if err.isTemporary then
        let s := s.Sleep 50
        session.nextReaderLoop n (some err) s
      else
        (.error (some err), s)
    | .ok (ft, pt, r) => (.ok (ft, pt, newReader r), s)

/-- `session.nextReader`: the loop `for i := 0; i < 30; i++`. -/
def session.nextReader (s : session) :
    Except (Option Err) (FrameType × PacketType × Reader) × session :=
  s.nextReaderLoop 30 none

/-- The loop of `session.nextWriter`. -/
def session.nextWriterLoop (ft : FrameType) (pt : PacketType) :
    Nat → Option Err → session → Except (Option Err) Writer × session
  | 0, err, s => (.error err, s)
  | n + 1, _, s =>
    let s := s.WriteLock
    let (res, c) := s.conn.NextWriter ft pt
    let s := { s with conn := c }.emit (.ConnNextWriter c.id ft pt)
    match res with
    | .error err =>
      let s := s.WriteUnlock
      if err.isTemporary then
        let s := s.Sleep 50
        session.nextWriterLoop ft pt n (some err) s
      else
        (.error (some err), s)
    | .ok w => (.ok (newWriter w), s)

/-- `session.nextWriter`. -/
def session.nextWriter (s : session) (ft : FrameType) (pt : PacketType) :
    Except (Option Err) Writer × session :=
  session.nextWriterLoop ft pt 30 none s

/-- `session.NextWriter`. -/
def session.NextWriter (s : session) (typ : FrameType) : Except (Option Err) Writer × session :=
  s.nextWriter typ .MESSAGE

/-- The loop of `session.setDeadline`; `conn` is the local variable (`none` for `nil`).
The result is `none` when the fuel runs out. -/
def session.setDeadlineLoop (deadline : Nat) : Nat → Option Nat → session → Option session
  | 0, _, _ => none
  | n + 1, conn, s =>
    let s := s.RLock
    let same := conn == some s.conn.id
    let conn := some s.conn.id
    let s := s.RUnlock
    if same then some s
    else
      let s := { s with conn := s.conn.SetReadDeadline deadline }.emit
        (.SetReadDeadline s.conn.id deadline)
      let s := { s with conn := s.conn.SetWriteDeadline deadline }.emit
        (.SetWriteDeadline s.conn.id deadline)
      session.setDeadlineLoop deadline n conn s

/-- `session.setDeadline`.  With one thread of control the loop makes two passes. -/
def session.setDeadline (s : session) : Option session :=
  session.setDeadlineLoop (s.now + s.PingTimeout) 2 none s

/-- The loop `for { ... }` of `session.NextReader`, with fuel: each pass that does not
return has taken at least one outcome off the script of the conn. -/
def session.NextReaderLoop :
    Nat → session → Option (Except Err (FrameType × Reader) × session)
  | 0, _ => none
  | fuel + 1, s =>
    match s.nextReader with
    | (.error (some err), s) => some (.error err, s)
    | (.error none, _) => none
    | (.ok (ft, pt, r), s) =>
      match pt with
      | .PING =>
        let echo : Option (Option Err × Reader × session) :=
          match s.nextWriter ft .PONG with
          | (.error (some err), s) => some (some err, r, s)
          | (.error none, _) => none
          | (.ok w, s) =>
            let (w, r, _) := ioCopy w r
            let (err, s) := s.closeWriter w
            some (err, r, s)
        match echo with
        | none => none
        | some (err, r, s) =>
          let (_, r, s) := s.closeReader r
          match err with
          | some err =>
            let (_, s) := s.Close
            some (.error err, s)
          | none =>
            match s.setDeadline with
            | none => none
            | some s =>
              let (_, _, s) := s.closeReader r
              session.NextReaderLoop fuel s
      | .CLOSE =>
        let (_, _, s) := s.closeReader r
        let (_, s) := s.Close
        some (.error .EOF, s)
      | .MESSAGE => some (.ok (ft, r), s)
      | _ =>
        let (_, _, s) := s.closeReader r
        session.NextReaderLoop fuel s

/-- `session.NextReader`.  The result is `none` only if the call does not return a
value (a `nil` reader or writer would be used, or the fuel runs out). -/
def session.NextReader (s : session) : Option (Except Err (FrameType × Reader) × session) :=
  s.NextReaderLoop (s.conn.reads.length + 1)

/-- How one pass of the loop of `session.NextReader` ends: the loop goes on to its next
pass (`next`), or the method returns (`done`). -/
inductive LoopPass where
  | next (s : session)
  | done (res : Except Err (FrameType × Reader)) (s : session)

/-- The body of the loop `for { ... }` of `session.NextReader`: one pass, from the call of
`s.nextReader()` to the `r.Close()` that ends the body or to a `return`.
`NextReaderLoop` repeats exactly this (`NextReaderLoop_pass`).  The result is `none` when
a `nil` reader or writer would be used. -/
def session.NextReaderPass (s : session) : Option LoopPass :=
  match s.nextReader with
  | (.error (some err), s) => some (.done (.error err) s)
  | (.error none, _) => none
  | (.ok (ft, pt, r), s) =>
    match pt with
    | .PING =>
      let echo : Option (Option Err × Reader × session) :=
        match s.nextWriter ft .PONG with
        | (.error (some err), s) => some (some err, r, s)
        | (.error none, _) => none
        | (.ok w, s) =>
          let (w, r, _) := ioCopy w r
          let (err, s) := s.closeWriter w
          some (err, r, s)
      match echo with
      | none => none
      | some (err, r, s) =>
        let (_, r, s) := s.closeReader r
        match err with
        | some err =>
          let (_, s) := s.Close
          some (.done (.error err) s)
        | none =>
          match s.setDeadline with
          | none => none
          | some s =>
            let (_, _, s) := s.closeReader r
            some (.next s)
    | .CLOSE =>
      let (_, _, s) := s.closeReader r
      let (_, s) := s.Close
      some (.done (.error .EOF) s)
    | .MESSAGE => some (.done (.ok (ft, r)) s)
    | _ =>
      let (_, _, s) := s.closeReader r
      some (.next s)

/-- What `NextReaderLoop` does with the outcome of a pass and the fuel that is left. -/
def session.afterPass (fuel : Nat) :
    Option LoopPass → Option (Except Err (FrameType × Reader) × session)
  | none => none
  | some (.done res s) => some (res, s)
  | some (.next s) => s.NextReaderLoop fuel

/-- The abort path of `session.upgrading`: `conn.Close(); return`. -/
def session.abortUpgrade (s : session) (conn : Conn) : session × Conn :=
  let (_, conn) := conn.Close
  (s.emit (.ConnClose conn.id), conn)

/-- The abort path of `session.upgrading` once the deferred function is registered:
`conn.Close(); return`, then the deferred `p.Resume()` on the old conn (`p` is not
`nil` on these paths). -/
def session.abortUpgradeResume (s : session) (conn : Conn) : session × Conn :=
  let (s, conn) := s.abortUpgrade conn
  ({ s with conn := s.conn.Resume }.emit (.Resume s.conn.id), conn)

/-- `session.upgrading(t, conn)`.  The result is the session together with the conn
that the session does not hold when the call returns: the new conn when the upgrade is
aborted, the old conn when it succeeds. -/
def session.upgrading (s : session) (t : String) (conn : Conn) : session × Conn :=
  let deadline := s.now + s.PingTimeout
  let conn := conn.SetReadDeadline deadline
  let s := s.emit (.SetReadDeadline conn.id deadline)
  let conn := conn.SetWriteDeadline deadline
  let s := s.emit (.SetWriteDeadline conn.id deadline)
  let (res, conn) := conn.NextReader
  let s := s.emit (.ConnNextReader conn.id)
  match res with
  | .error _ => s.abortUpgrade conn
  | .ok (ft, pt, r) =>
    if pt != .PING then s.abortUpgrade conn
    else
      let (err, r, s) := s.closeReader r
      match err with
      | some _ => s.abortUpgrade conn
      | none =>
        let (wres, conn) := conn.NextWriter ft .PONG
        let s := s.emit (.ConnNextWriter conn.id ft .PONG)
        match wres with
        | .error _ => s.abortUpgrade conn
        | .ok w =>
          let (w, _, cerr) := ioCopy w r
          match cerr with
          | some _ => s.abortUpgrade conn
          | none =>
            let (err, conn) := conn.closeWriter w
            let s := s.emit
              (.WriterClose conn.id { ft := w.ft, pt := w.pt, body := w.buf } err.isNone)
            match err with
            | some _ => s.abortUpgrade conn
            | none =>
              let s := s.RLock
              let old := s.conn
              let s := s.RUnlock
              if !old.pauser then s.abortUpgrade conn
              else
                let s := { s with conn := s.conn.Pause }.emit (.Pause s.conn.id)
                let (res, conn) := conn.NextReader
                let s := s.emit (.ConnNextReader conn.id)
                match res with
                | .error _ => s.abortUpgradeResume conn
                | .ok (_, pt, r) =>
                  if pt != .UPGRADE then s.abortUpgradeResume conn
                  else
                    let (err, _, s) := s.closeReader r
                    match err with
                    | some _ => s.abortUpgradeResume conn
                    | none =>
                      let old := s.conn
                      let s := s.Lock
                      let s := { s with conn := conn }.emit (.SetConn conn.id)
                      let s := { s with transport := t }.emit (.SetTransport t)
                      let s := s.Unlock
                      let (_, old) := old.Close
                      (s.emit (.ConnClose old.id), old)

/-- The condition under which the upgrade handshake runs to its end: the new conn
delivers a `PING` whose reader closes without error, the `PONG` writer is obtained,
written and closed without error, the current conn of the session is a `Pauser`, and
the new conn then delivers an `UPGRADE` whose reader closes without error. -/
def handshakeCompletes (s : session) (conn : Conn) : Bool :=
  match conn.reads with
  | .deliver p1 :: .deliver p2 :: _ =>
    p1.pt == .PING && p1.closeErr.isNone &&
    (match conn.writes with
     | [] => true
     | .writer copyFail closeErr :: _ => copyFail.isNone && closeErr.isNone
     | .fail _ :: _ => false) &&
    s.conn.pauser &&
    p2.pt == .UPGRADE && p2.closeErr.isNone
  | _ => false

/-- Calling `session.Close` `k` times in sequence: the values returned, and the final
state. -/
def session.closeTimes : Nat → session → List (Option Err) × session
  | 0, s => ([], s)
  | k + 1, s =>
    let (err, s) := s.Close
    let (errs, s) := session.closeTimes k s
    (err :: errs, s)

/-- What the application sees of one result of `session.NextReader`: the frame kind and
the bytes it reads from the reader, or the error. -/
abbrev ReadResult := Except Err (FrameType × List Nat)

/-- An application that calls `session.NextReader` up to `k` times in sequence, reads
each returned reader to its end and closes it; the list of what it got, and the final
state.  It stops early only if a call does not return. -/
def session.readTimes : Nat → session → List ReadResult × session
  | 0, s => ([], s)
  | k + 1, s =>
    match s.NextReader with
    | none => ([], s)
    | some (.error err, s) =>
      let (rest, s) := session.readTimes k s
      (.error err :: rest, s)
    | some (.ok (ft, r), s) =>
      let (_, _, s) := s.closeReader r
      let (rest, s) := session.readTimes k s
      (.ok (ft, r.body) :: rest, s)

/-- The inbound packets before the first `CLOSE`. -/
def beforeClose (ps : List InPacket) : List InPacket :=
  ps.takeWhile (fun p => p.pt != .CLOSE)

/-- The `(frame kind, body)` pairs of the `MESSAGE` packets before the first `CLOSE`. -/
def messagesBeforeClose (ps : List InPacket) : List ReadResult :=
  ((beforeClose ps).filter (fun p => p.pt == .MESSAGE)).map (fun p => .ok (p.ft, p.body))

/-- A polling-like conn (a `Pauser`) for worked examples, with the given scripts. -/
def exampleConn (id : Nat) (reads : List ReadOutcome) (writes : List WriteOutcome) : Conn :=
  { id := id, pauser := true, reads := reads, writes := writes, closes := [] }

/-- A live session for worked examples, registered in a manager that also holds
another session. -/
def exampleSession (conn : Conn) : session :=
  { SID := "sid-1", PingTimeout := 60000, manager := ["sid-0", "sid-1"],
    transport := "polling", conn := conn, now := 1000 }

/-- The outcome of the call of `NextReader` that comes `i` calls from now. -/
def Conn.readAt (c : Conn) (i : Nat) : ReadOutcome := c.reads.getD i (.fail Err.closed)

/-- The outcome of the call of `NextWriter` that comes `i` calls from now. -/
def Conn.writeAt (c : Conn) (i : Nat) : WriteOutcome := c.writes.getD i (.writer none none)

/-- Whether a read outcome is a temporary `payload.Error`. -/
def ReadOutcome.isTemporary : ReadOutcome → Bool
  | .fail e => e.isTemporary
  | .deliver _ => false

/-- Whether a write outcome is a temporary `payload.Error`. -/
def WriteOutcome.isTemporary : WriteOutcome → Bool
  | .fail e => e.isTemporary
  | .writer _ _ => false

/-- What `session.nextReader` returns when the conn call that ends its loop has the
given outcome. -/
def readerReturn (c : Conn) : ReadOutcome → Except (Option Err) (FrameType × PacketType × Reader)
  | .fail e => .error (some e)
  | .deliver p =>
    .ok (p.ft, p.pt, newReader
      { conn := c.id, body := p.body, closeErr := p.closeErr, closed := false, locker := false })

/-- What `session.nextWriter` returns when the conn call that ends its loop has the
given outcome. -/
def writerReturn (c : Conn) (ft : FrameType) (pt : PacketType) :
    WriteOutcome → Except (Option Err) Writer
  | .fail e => .error (some e)
  | .writer copyFail closeErr =>
    .ok (newWriter
      { conn := c.id, ft := ft, pt := pt, buf := [], copyFail := copyFail,
        closeErr := closeErr, locker := false })

/-- Number of locks a call still holds when it returns: one with a value, none with an
error. -/
def held {ε α : Type} : Except ε α → Nat
  | .ok _ => 1
  | .error _ => 0

/-- The invariant of a session that reads a script of packets: the script, a conn
whose writers work, and a session that has not been closed. -/
def readsPackets (s : session) (ps : List InPacket) : Prop :=
  s.conn.reads = ps.map .deliver ∧ (∀ w ∈ s.conn.writes, w = .writer none none) ∧
    s.closeOnce = false

/-- The events of a heartbeat reply: a writer closed (a packet committed or refused) and
a deadline set. -/
def Event.isEcho : Event → Bool
  | .WriterClose _ _ _ => true
  | .SetReadDeadline _ _ => true
  | .SetWriteDeadline _ _ => true
  | _ => false

/-- The events of the swap in `upgrading`: the write side of `upgradeLocker` and the
assignments to the fields `conn` and `transport`. -/
def Event.isSwap : Event → Bool
  | .Lock => true
  | .Unlock => true
  | .SetConn _ => true
  | .SetTransport _ => true
  | _ => false

/-- The inbound script of a client for worked examples: a heartbeat, two messages with
control packets in between, a `CLOSE`, and a message that comes too late. -/
def examplePackets : List InPacket :=
  [ { ft := .TEXT, pt := .PING, body := [112] },
    { ft := .TEXT, pt := .NOOP, body := [] },
    { ft := .TEXT, pt := .MESSAGE, body := [104, 105] },
    { ft := .TEXT, pt := .OPEN, body := [] },
    { ft := .BINARY, pt := .MESSAGE, body := [7] },
    { ft := .TEXT, pt := .CLOSE, body := [] },
    { ft := .TEXT, pt := .MESSAGE, body := [9] } ]

/-- A session whose conn delivers one `PING` with body "probe"; the conn is paused for
the first `NextWriter` call (a temporary error) and works afterwards. -/
def examplePingSession : session :=
  exampleSession (exampleConn 1
    [.deliver { ft := .TEXT, pt := .PING, body := [112, 114, 111, 98, 101] }]
    [.fail (.payload true "paused")])

/-- A websocket conn (no `Pauser`) on which the client runs the upgrade handshake:
`PING` with body "probe", then `UPGRADE`. -/
def exampleUpgradeConn : Conn :=
  { id := 2, pauser := false,
    reads := [.deliver { ft := .TEXT, pt := .PING, body := [112, 114, 111, 98, 101] },
              .deliver { ft := .TEXT, pt := .UPGRADE, body := [] }],
    writes := [], closes := [] }

/-! ## Part III. Theorems -/

/-! ### newId -/

theorem encodeChar_urlSafe (i : Nat) (h : i ≤ 63) : isURLSafeChar (encodeChar i) = true := by
  interval_cases i <;> decide

theorem encodeChar_and_urlSafe (v : Nat) : isURLSafeChar (encodeChar (v &&& 0x3F)) = true :=
  encodeChar_urlSafe _ Nat.and_le_right

theorem base64URLEncode_digest_length (sum : Digest) :
    (base64URLEncode (List.ofFn sum)).length = 24 := by
  simp [List.ofFn_succ, base64URLEncode]

theorem urlSafe_ne_pad (c : Char) (h : isURLSafeChar c = true) : c ≠ '=' := by
  rintro rfl
  exact absurd h (by decide)

theorem base64URLEncode_digest_take (sum : Digest) :
    ∀ c ∈ (base64URLEncode (List.ofFn sum)).take 20, isURLSafeChar c = true := by
  simp only [List.ofFn_succ, List.ofFn_zero, base64URLEncode, List.take_succ_cons,
    List.take_zero, List.mem_cons, List.mem_nil_iff, or_false]
  intro c hc
  rcases hc with h | h | h | h | h | h | h | h | h | h | h | h | h | h | h | h | h | h | h | h <;>
    (subst h; exact encodeChar_and_urlSafe _)

/-- C10: for every remote address, timestamp and 16-byte hash function, `Server.newId`
returns (the slice `[:20]` is in range, the encoding being 24 characters long) a string
of exactly 20 characters, all from the URL-safe base64 alphabet and none the padding
character, equal to the first 20 characters of the encoding of the digest. -/
theorem newId_is_20_urlsafe_chars (env : Env) (r : Request) :
    ∃ id : String,
      Server.newId env r = some id ∧
      id.length = 20 ∧
      (∀ c ∈ id.toList, isURLSafeChar c = true ∧ c ≠ '=') ∧
      id.toList =
        (base64URLEncode (List.ofFn (env.md5Sum (r.RemoteAddr ++ " " ++ env.now)))).take 20 ∧
      20 ≤ (base64URLEncode (List.ofFn (env.md5Sum (r.RemoteAddr ++ " " ++ env.now)))).length := by
  have hlen := base64URLEncode_digest_length (env.md5Sum (r.RemoteAddr ++ " " ++ env.now))
  have hsafe := base64URLEncode_digest_take (env.md5Sum (r.RemoteAddr ++ " " ++ env.now))
  simp only [Server.newId]
  generalize base64URLEncode (List.ofFn (env.md5Sum (r.RemoteAddr ++ " " ++ env.now))) = buf
    at hlen hsafe ⊢
  refine ⟨String.mk (buf.take 20), ?_, ?_, ?_, rfl, by omega⟩
  · simp [sliceTo, hlen]
  · simp [String.length, hlen]
  · intro c hc
    exact ⟨hsafe c hc, urlSafe_ne_pad c (hsafe c hc)⟩

/-! ### ServeHTTP -/

theorem find_filter_ne {β : Type} (m : List (String × β)) (k k' : String) (h : k' ≠ k) :
    List.find? (fun kv => kv.1 == k') (List.filter (fun kv => kv.1 != k) m) =
      List.find? (fun kv => kv.1 == k') m := by
  induction m with
  | nil => rfl
  | cons a m ih =>
    obtain ⟨a1, a2⟩ := a
    by_cases ha : a1 = k
    · subst ha
      have hne : (a1 == k') = false := by simpa using fun e => h e.symm
      simp only [List.filter_cons, bne_self_eq_false, Bool.false_eq_true, if_false,
        List.find?_cons, hne, ih]
    · have hq : (a1 != k) = true := by simpa using ha
      simp only [List.filter_cons, hq, if_true, List.find?_cons, ih]

theorem filter_absent {β : Type} (m : List (String × β)) (k : String)
    (h : List.find? (fun kv => kv.1 == k) m = none) :
    List.filter (fun kv => kv.1 != k) m = m := by
  rw [List.filter_eq_self]
  intro a ha
  rw [List.find?_eq_none] at h
  simpa using h a ha

theorem serverSessions_Get_Set_same (m : serverSessions) (k : String) (c : serverConn) :
    serverSessions.Get (serverSessions.Set m k c) k = some c := by
  simp [serverSessions.Get, serverSessions.Set]

theorem serverSessions_Get_Set_other (m : serverSessions) (k k' : String) (c : serverConn)
    (h : k' ≠ k) :
    serverSessions.Get (serverSessions.Set m k c) k' = serverSessions.Get m k' := by
  have hk : (k == k') = false := by simpa using fun e => h e.symm
  simp only [serverSessions.Get, serverSessions.Set, List.find?_cons, hk]
  rw [find_filter_ne m k k' h]

theorem serverSessions_Set_length (m : serverSessions) (k : String) (c : serverConn)
    (h : serverSessions.Get m k = none) :
    (serverSessions.Set m k c).length = m.length + 1 := by
  have h' : List.find? (fun kv => kv.1 == k) m = none := by
    simpa [serverSessions.Get] using h
  simp [serverSessions.Set, filter_absent m k h']

theorem serverSessions_Get_mem (m : serverSessions) (k : String) (c : serverConn)
    (h : serverSessions.Get m k = some c) : (k, c) ∈ m := by
  unfold serverSessions.Get at h
  cases hf : List.find? (fun kv => kv.1 == k) m with
  | none => rw [hf] at h; exact absurd h (by simp)
  | some kc =>
    rw [hf] at h
    have hm := List.mem_of_find?_eq_some hf
    have hk := List.find?_some hf
    obtain ⟨k0, c0⟩ := kc
    simp only [beq_iff_eq] at hk
    simp only [Option.map_some', Option.some.injEq] at h
    subst hk h
    exact hm

/-- In a state whose ids are all 20 characters long the empty id is unknown. -/
theorem idsWellFormed_Get_empty (s : Server) (h : s.idsWellFormed) :
    s.serverSessions.Get "" = none := by
  cases hg : s.serverSessions.Get "" with
  | none => rfl
  | some c =>
    have := h _ (serverSessions_Get_mem _ _ _ hg)
    simp at this

theorem NewServer_idsWellFormed : NewServer.idsWellFormed := by
  intro kv hkv
  simp [NewServer] at hkv

theorem onClose_idsWellFormed (s : Server) (id : String) (h : s.idsWellFormed) :
    (s.onClose id).idsWellFormed := by
  intro kv hkv
  simp only [Server.onClose, serverSessions.Remove, List.mem_filter] at hkv
  exact h kv hkv.1

/-- The handler keeps the invariant: the only key it ever adds is an id from `newId`. -/
theorem ServeHTTP_idsWellFormed (env : Env) (s : Server) (w : ResponseWriter) (r : Request)
    (res : Served) (h : s.idsWellFormed) (hres : Server.ServeHTTP env s w r = some res) :
    res.server.idsWellFormed := by
  unfold Server.ServeHTTP at hres
  simp only at hres
  split at hres
  · simp only [Option.some.injEq] at hres; subst hres; exact h
  · split at hres
    · simp only [Option.some.injEq] at hres; subst hres; exact h
    · split at hres
      · simp only [Option.some.injEq] at hres; subst hres; exact h
      · split at hres
        · exact absurd hres (by simp)
        · rename_i sid hid
          split at hres
          · simp only [Option.some.injEq] at hres; subst hres; exact h
          · simp only [Option.some.injEq] at hres; subst hres
            intro kv hkv
            simp only [Server.finish, serverSessions.Set, List.mem_cons, List.mem_filter] at hkv
            rcases hkv with hkv | hkv
            · obtain ⟨id, hid', hlen, -⟩ := newId_is_20_urlsafe_chars env r
              rw [hid] at hid'
              simp only [Option.some.injEq] at hid'
              subst hid' hkv
              exact hlen
            · exact h kv hkv.1

/-- C9: in a reachable server state (all registered ids 20 characters long), a request
whose `sid` is non-empty and unknown is answered with status 400 and the text
"invalid sid", and a request with empty `sid` that `AllowRequest` rejects with error
`msg` is answered with status 400 and `msg`; in both cases the server (session map and
channel included) is unchanged and no conn handler is invoked. -/
theorem ServeHTTP_rejects_with_400 (env : Env) (s : Server) (w : ResponseWriter)
    (r : Request) (msg : String) (hwf : s.idsWellFormed)
    (h : (r.sid ≠ "" ∧ s.serverSessions.Get r.sid = none ∧ msg = "invalid sid") ∨
         (r.sid = "" ∧ s.config.AllowRequest r = some msg)) :
    ∃ res, Server.ServeHTTP env s w r = some res ∧
      res.w.status = some 400 ∧
      res.w.body = w.body ++ msg ++ "\n" ∧
      res.server.serverSessions = s.serverSessions ∧
      res.server.socketChan = s.socketChan ∧
      res.handler = none := by
  rcases h with ⟨hsid, hget, hmsg⟩ | ⟨hsid, hallow⟩
  · subst hmsg
    refine ⟨{ w := httpError w "invalid sid" StatusBadRequest, server := s, handler := none },
      ?_, ?_, ?_, ?_, ?_, ?_⟩
    · unfold Server.ServeHTTP
      simp only [hget]
      rw [if_pos (by simpa using hsid)]
    all_goals rfl
  · have hget := idsWellFormed_Get_empty s hwf
    refine ⟨{ w := httpError w msg StatusBadRequest, server := s, handler := none },
      ?_, ?_, ?_, ?_, ?_, ?_⟩
    · unfold Server.ServeHTTP
      simp only [hsid, hget]
      simp only [hallow, bne_self_eq_false, Bool.false_eq_true, if_false]
    all_goals rfl

/-- Witness for C9: an unknown `sid` "ghost" and a request rejected by `AllowRequest`
with the error "nope", both on a fresh server. -/
theorem ServeHTTP_rejects_with_400_witness :
    (∃ res, Server.ServeHTTP (exampleEnv 1) NewServer {}
        { sid := "ghost", RemoteAddr := "10.0.0.1:4000", cookies := [] } = some res ∧
      res.w.status = some 400 ∧
      res.w.body = "" ++ "invalid sid" ++ "\n" ∧
      res.server.serverSessions = NewServer.serverSessions ∧
      res.server.socketChan = NewServer.socketChan ∧
      res.handler = none) ∧
    (∃ res, Server.ServeHTTP (exampleEnv 1) (NewServer.SetAllowRequest fun _ => some "nope") {}
        exampleRequest = some res ∧
      res.w.status = some 400 ∧
      res.w.body = "" ++ "nope" ++ "\n" ∧
      res.server.serverSessions = (NewServer.SetAllowRequest fun _ => some "nope").serverSessions ∧
      res.server.socketChan = (NewServer.SetAllowRequest fun _ => some "nope").socketChan ∧
      res.handler = none) :=
  ⟨ServeHTTP_rejects_with_400 (exampleEnv 1) NewServer {}
      { sid := "ghost", RemoteAddr := "10.0.0.1:4000", cookies := [] } "invalid sid"
      NewServer_idsWellFormed (Or.inl ⟨by decide, rfl, rfl⟩),
   ServeHTTP_rejects_with_400 (exampleEnv 1) (NewServer.SetAllowRequest fun _ => some "nope") {}
      exampleRequest "nope" NewServer_idsWellFormed (Or.inr ⟨rfl, rfl⟩)⟩

/-- C8, as stated, fails: two requests with the same remote address served at the same
clock reading get the same id; the second registration replaces the first session (it is
no longer retrievable) and the number of registered sessions stays 1. -/
theorem ServeHTTP_same_id_replaces_session :
    exampleServer.serverSessions.Get "AAAAAAAAAAAAAAAAAAAA" =
        some { id := "AAAAAAAAAAAAAAAAAAAA", serial := 1 } ∧
    exampleServer.serverSessions.length = 1 ∧
    (Server.ServeHTTP (exampleEnv 2) exampleServer {} exampleRequest).map
        (fun res => (res.server.serverSessions.Get "AAAAAAAAAAAAAAAAAAAA",
          res.server.serverSessions.length, res.server.socketChan.length)) =
      some (some { id := "AAAAAAAAAAAAAAAAAAAA", serial := 2 }, 1, 2) := by
  refine ⟨?_, ?_, ?_⟩ <;> rfl

/-- C8 (amended): when `ServeHTTP` creates a session (empty `sid`, unknown to the map,
accepted by `AllowRequest`, conn constructed), it registers the conn by
`serverSessions.Set` under the id that `newId` returned, whatever the map holds (no
comparison, no re-roll): the new conn is retrievable under that id, the sessions under
every other id are retrievable as before, the conn is sent on the channel and its handler
invoked.  If moreover that id was not in the map, every session registered before is
still retrievable under its id and the number of registered sessions grows by exactly
one. -/
theorem ServeHTTP_registers_newId (env : Env) (s : Server) (w : ResponseWriter)
    (r : Request) (id : String) (serial : Nat)
    (hsid : r.sid = "") (hget : s.serverSessions.Get "" = none)
    (hallow : s.config.AllowRequest r = none)
    (hid : Server.newId env r = some id)
    (hconn : env.newServerConn id r = .ok serial) :
    ∃ res, Server.ServeHTTP env s w r = some res ∧
      res.server.serverSessions = s.serverSessions.Set id { id := id, serial := serial } ∧
      res.server.serverSessions.Get id = some { id := id, serial := serial } ∧
      (∀ k, k ≠ id → res.server.serverSessions.Get k = s.serverSessions.Get k) ∧
      res.server.socketChan = s.socketChan ++ [{ id := id, serial := serial }] ∧
      res.handler = some { id := id, serial := serial } ∧
      (s.serverSessions.Get id = none →
        (∀ k c, s.serverSessions.Get k = some c → res.server.serverSessions.Get k = some c) ∧
        res.server.serverSessions.length = s.serverSessions.length + 1) := by
  refine ⟨Server.finish
      { config := s.config, socketChan := s.socketChan ++ [{ id := id, serial := serial }],
        serverSessions := s.serverSessions.Set id { id := id, serial := serial } }
      w r (r.cookies ++ [s.config.Cookie ++ "=" ++ id]) { id := id, serial := serial },
    ?_, rfl, ?_, ?_, rfl, rfl, ?_⟩
  · unfold Server.ServeHTTP
    simp only [hsid, hget, hallow, hid, hconn, bne_self_eq_false, Bool.false_eq_true, if_false]
  · exact serverSessions_Get_Set_same _ _ _
  · intro k hk
    exact serverSessions_Get_Set_other _ _ _ _ hk
  · intro hfresh
    refine ⟨?_, serverSessions_Set_length _ _ _ hfresh⟩
    intro k c hk
    have hne : k ≠ id := by
      rintro rfl
      rw [hfresh] at hk
      exact absurd hk (by simp)
    exact (serverSessions_Get_Set_other _ _ _ _ hne).trans hk

/-- Witness for C8 (amended): a second client, from another address, on `exampleServer`;
its id is new to the map, so the first session stays and the map grows to two entries. -/
theorem ServeHTTP_registers_newId_witness :
    ∃ res, Server.ServeHTTP
        { now := "t", md5Sum := fun _ _ => 1, newServerConn := fun _ _ => .ok 2 }
        exampleServer {} { sid := "", RemoteAddr := "10.0.0.2:4000", cookies := [] } = some res ∧
      res.server.serverSessions.Get "AQEBAQEBAQEBAQEBAQEB" =
        some { id := "AQEBAQEBAQEBAQEBAQEB", serial := 2 } ∧
      (∀ k, k ≠ "AQEBAQEBAQEBAQEBAQEB" →
        res.server.serverSessions.Get k = exampleServer.serverSessions.Get k) ∧
      res.server.socketChan =
        exampleServer.socketChan ++ [{ id := "AQEBAQEBAQEBAQEBAQEB", serial := 2 }] ∧
      res.handler = some { id := "AQEBAQEBAQEBAQEBAQEB", serial := 2 } ∧
      res.server.serverSessions.Get "AAAAAAAAAAAAAAAAAAAA" =
        some { id := "AAAAAAAAAAAAAAAAAAAA", serial := 1 } ∧
      res.server.serverSessions.length = 2 :=
  match ServeHTTP_registers_newId
      { now := "t", md5Sum := fun _ _ => 1, newServerConn := fun _ _ => .ok 2 }
      exampleServer {} { sid := "", RemoteAddr := "10.0.0.2:4000", cookies := [] }
      "AQEBAQEBAQEBAQEBAQEB" 2 rfl rfl rfl rfl rfl with
  | ⟨res, h1, _, h3, h4, h5, h6, h7⟩ =>
    ⟨res, h1, h3, h4, h5, h6, (h7 rfl).1 _ _ rfl, (h7 rfl).2⟩

/-! ### nextReader, nextWriter -/

theorem Conn_readAt_succ (c c1 : Conn) (o : ReadOutcome) (rest : List ReadOutcome)
    (h : c.reads = o :: rest) (h1 : c1.reads = rest) (i : Nat) :
    c.readAt (i + 1) = c1.readAt i := by
  simp [Conn.readAt, h, h1]

/-- The state in which `nextReader` starts its next pass after a temporary error. -/
theorem nextReaderLoop_retry (k : Nat) (err0 : Option Err) (s : session) (e : Err)
    (rest : List ReadOutcome) (hr : s.conn.reads = .fail e :: rest)
    (he : e.isTemporary = true) :
    ∃ s1 : session, s.nextReaderLoop (k + 1) err0 = s1.nextReaderLoop k (some e) ∧
      s1.conn.reads = rest ∧ s1.conn.readCalls = s.conn.readCalls + 1 ∧
      s1.conn.id = s.conn.id ∧
      s1.upgradeLocker.rlocks = s.upgradeLocker.rlocks + 1 ∧
      s1.upgradeLocker.runlocks = s.upgradeLocker.runlocks + 1 ∧
      s1.upgradeLocker.locks = s.upgradeLocker.locks ∧
      s1.upgradeLocker.unlocks = s.upgradeLocker.unlocks ∧
      s1.conn.written = s.conn.written ∧ s1.PingTimeout = s.PingTimeout ∧
      s1.log.filter Event.isEcho = s.log.filter Event.isEcho := by
  refine ⟨?w, ?h, ?_⟩
  case h =>
    rw [session.nextReaderLoop]
    simp only [Conn.NextReader, session.RLock, hr, he, if_true]
    exact rfl
  simp [session.RLock, session.RUnlock, session.emit, session.Sleep, Event.isEcho]

theorem nextReaderLoop_spec (k : Nat) (err0 : Option Err) (s : session) :
    ∃ n, 1 ≤ n ∧ n ≤ k + 1 ∧
      (s.nextReaderLoop (k + 1) err0).2.conn.readCalls = s.conn.readCalls + n ∧
      (∀ i, i + 1 < n → (s.conn.readAt i).isTemporary = true) ∧
      (n < k + 1 → (s.conn.readAt (n - 1)).isTemporary = false) ∧
      (s.nextReaderLoop (k + 1) err0).1 = readerReturn s.conn (s.conn.readAt (n - 1)) ∧
      (s.nextReaderLoop (k + 1) err0).2.upgradeLocker.rlocks = s.upgradeLocker.rlocks + n ∧
      (s.nextReaderLoop (k + 1) err0).2.upgradeLocker.runlocks
          + held (s.nextReaderLoop (k + 1) err0).1 = s.upgradeLocker.runlocks + n ∧
      (s.nextReaderLoop (k + 1) err0).2.upgradeLocker.locks = s.upgradeLocker.locks ∧
      (s.nextReaderLoop (k + 1) err0).2.upgradeLocker.unlocks = s.upgradeLocker.unlocks ∧
      (s.nextReaderLoop (k + 1) err0).2.conn.id = s.conn.id := by
  induction k generalizing s err0 with
  | zero =>
    refine ⟨1, le_refl _, le_refl _, ?_⟩
    rcases hr : s.conn.reads with _ | ⟨o, rest⟩
    · simp [session.nextReaderLoop, Conn.NextReader, hr, session.RLock, session.RUnlock,
        session.emit, Conn.readAt, readerReturn, held, Err.isTemporary, Err.closed]
    · rcases o with e | p
      · by_cases he : e.isTemporary = true
        · simp [session.nextReaderLoop, Conn.NextReader, hr, session.RLock, session.RUnlock,
            session.emit, session.Sleep, Conn.readAt, readerReturn, held, he]
        · simp [session.nextReaderLoop, Conn.NextReader, hr, session.RLock, session.RUnlock,
            session.emit, Conn.readAt, readerReturn, held, he]
      · simp [session.nextReaderLoop, Conn.NextReader, hr, session.RLock, session.RUnlock,
          session.emit, Conn.readAt, readerReturn, held]
  | succ k ih =>
    rcases hr : s.conn.reads with _ | ⟨o, rest⟩
    · refine ⟨1, le_refl _, by omega, ?_⟩
      simp [session.nextReaderLoop, Conn.NextReader, hr, session.RLock, session.RUnlock,
        session.emit, Conn.readAt, readerReturn, held, Err.isTemporary, Err.closed,
        ReadOutcome.isTemporary]
    · rcases o with e | p
      · by_cases he : e.isTemporary = true
        · obtain ⟨s1, hs1, hreads, hcalls, hid, hrl, hru, hl, hu, _, _, _⟩ :=
            nextReaderLoop_retry (k + 1) err0 s e rest hr he
          obtain ⟨n, hn1, hnk, h1, h2, h3, h4, h5, h6, h7, h8, h9⟩ := ih (some e) s1
          have hshift : ∀ i, s.conn.readAt (i + 1) = s1.conn.readAt i :=
            Conn_readAt_succ s.conn s1.conn _ rest hr hreads
          have h0 : s.conn.readAt 0 = .fail e := by simp [Conn.readAt, hr]
          refine ⟨n + 1, by omega, by omega, ?_, ?_, ?_, ?_, ?_, ?_, ?_, ?_, ?_⟩
          · rw [hs1, h1, hcalls]; omega
          · intro i hi
            rcases i with _ | i
            · rw [h0]; exact he
            · rw [hshift]; exact h2 i (by omega)
          · intro hlt
            have : n - 1 + 1 = n := by omega
            rw [show n + 1 - 1 = (n - 1) + 1 by omega, hshift]
            exact h3 (by omega)
          · rw [hs1, h4, show n + 1 - 1 = (n - 1) + 1 by omega, hshift]
            cases s1.conn.readAt (n - 1) <;> simp [readerReturn, hid]
          · rw [hs1, h5, hrl]; omega
          · rw [hs1, h6, hru]; omega
          · rw [hs1, h7, hl]
          · rw [hs1, h8, hu]
          · rw [hs1, h9, hid]
        · refine ⟨1, le_refl _, by omega, ?_⟩
          simp [session.nextReaderLoop, Conn.NextReader, hr, session.RLock, session.RUnlock,
            session.emit, Conn.readAt, readerReturn, held, he, ReadOutcome.isTemporary]
      · refine ⟨1, le_refl _, by omega, ?_⟩
        simp [session.nextReaderLoop, Conn.NextReader, hr, session.RLock, session.RUnlock,
          session.emit, Conn.readAt, readerReturn, held, ReadOutcome.isTemporary]

/-- The state in which `nextWriter` starts its next pass after a temporary error. -/
theorem nextWriterLoop_retry (ft : FrameType) (pt : PacketType) (k : Nat) (err0 : Option Err)
    (s : session) (e : Err) (rest : List WriteOutcome) (hr : s.conn.writes = .fail e :: rest)
    (he : e.isTemporary = true) :
    ∃ s1 : session,
      session.nextWriterLoop ft pt (k + 1) err0 s = session.nextWriterLoop ft pt k (some e) s1 ∧
      s1.conn.writes = rest ∧ s1.conn.writeCalls = s.conn.writeCalls + 1 ∧
      s1.conn.id = s.conn.id ∧
      s1.writeLocker.locks = s.writeLocker.locks + 1 ∧
      s1.writeLocker.unlocks = s.writeLocker.unlocks + 1 ∧
      s1.conn.written = s.conn.written ∧ s1.conn.readCalls = s.conn.readCalls ∧
      s1.PingTimeout = s.PingTimeout ∧
      s1.log.filter Event.isEcho = s.log.filter Event.isEcho ∧
      s1.conn.reads = s.conn.reads := by
  refine ⟨?w, ?h, ?_⟩
  case h =>
    rw [session.nextWriterLoop]
    simp only [Conn.NextWriter, session.WriteLock, hr, he, if_true]
    exact rfl
  simp [session.WriteLock, session.WriteUnlock, session.emit, session.Sleep, Event.isEcho]

theorem Conn_writeAt_succ (c c1 : Conn) (o : WriteOutcome) (rest : List WriteOutcome)
    (h : c.writes = o :: rest) (h1 : c1.writes = rest) (i : Nat) :
    c.writeAt (i + 1) = c1.writeAt i := by
  simp [Conn.writeAt, h, h1]

theorem nextWriterLoop_spec (ft : FrameType) (pt : PacketType) (k : Nat) (err0 : Option Err)
    (s : session) :
    ∃ n, 1 ≤ n ∧ n ≤ k + 1 ∧
      (session.nextWriterLoop ft pt (k + 1) err0 s).2.conn.writeCalls = s.conn.writeCalls + n ∧
      (∀ i, i + 1 < n → (s.conn.writeAt i).isTemporary = true) ∧
      (n < k + 1 → (s.conn.writeAt (n - 1)).isTemporary = false) ∧
      (session.nextWriterLoop ft pt (k + 1) err0 s).1
          = writerReturn s.conn ft pt (s.conn.writeAt (n - 1)) ∧
      (session.nextWriterLoop ft pt (k + 1) err0 s).2.writeLocker.locks
          = s.writeLocker.locks + n ∧
      (session.nextWriterLoop ft pt (k + 1) err0 s).2.writeLocker.unlocks
          + held (session.nextWriterLoop ft pt (k + 1) err0 s).1 = s.writeLocker.unlocks + n ∧
      (session.nextWriterLoop ft pt (k + 1) err0 s).2.conn.id = s.conn.id := by
  induction k generalizing s err0 with
  | zero =>
    refine ⟨1, le_refl _, le_refl _, ?_⟩
    rcases hr : s.conn.writes with _ | ⟨o, rest⟩
    · simp [session.nextWriterLoop, Conn.NextWriter, hr, session.WriteLock, session.WriteUnlock,
        session.emit, Conn.writeAt, writerReturn, held]
    · rcases o with e | ⟨cf, ce⟩
      · by_cases he : e.isTemporary = true
        · simp [session.nextWriterLoop, Conn.NextWriter, hr, session.WriteLock,
            session.WriteUnlock, session.emit, session.Sleep, Conn.writeAt, writerReturn,
            held, he]
        · simp [session.nextWriterLoop, Conn.NextWriter, hr, session.WriteLock,
            session.WriteUnlock, session.emit, Conn.writeAt, writerReturn, held, he]
      · simp [session.nextWriterLoop, Conn.NextWriter, hr, session.WriteLock,
          session.WriteUnlock, session.emit, Conn.writeAt, writerReturn, held]
  | succ k ih =>
    rcases hr : s.conn.writes with _ | ⟨o, rest⟩
    · refine ⟨1, le_refl _, by omega, ?_⟩
      simp [session.nextWriterLoop, Conn.NextWriter, hr, session.WriteLock, session.WriteUnlock,
        session.emit, Conn.writeAt, writerReturn, held, WriteOutcome.isTemporary]
    · rcases o with e | ⟨cf, ce⟩
      · by_cases he : e.isTemporary = true
        · obtain ⟨s1, hs1, hwrites, hcalls, hid, hl, hu, _, _, _, _, _⟩ :=
            nextWriterLoop_retry ft pt (k + 1) err0 s e rest hr he
          obtain ⟨n, hn1, hnk, h1, h2, h3, h4, h5, h6, h7⟩ := ih (some e) s1
          have hshift : ∀ i, s.conn.writeAt (i + 1) = s1.conn.writeAt i :=
            Conn_writeAt_succ s.conn s1.conn _ rest hr hwrites
          have h0 : s.conn.writeAt 0 = .fail e := by simp [Conn.writeAt, hr]
          refine ⟨n + 1, by omega, by omega, ?_, ?_, ?_, ?_, ?_, ?_, ?_⟩
          · rw [hs1, h1, hcalls]; omega
          · intro i hi
            rcases i with _ | i
            · rw [h0]; exact he
            · rw [hshift]; exact h2 i (by omega)
          · intro hlt
            rw [show n + 1 - 1 = (n - 1) + 1 by omega, hshift]
            exact h3 (by omega)
          · rw [hs1, h4, show n + 1 - 1 = (n - 1) + 1 by omega, hshift]
            cases s1.conn.writeAt (n - 1) <;> simp [writerReturn, hid]
          · rw [hs1, h5, hl]; omega
          · rw [hs1, h6, hu]; omega
          · rw [hs1, h7, hid]
        · refine ⟨1, le_refl _, by omega, ?_⟩
          simp [session.nextWriterLoop, Conn.NextWriter, hr, session.WriteLock,
            session.WriteUnlock, session.emit, Conn.writeAt, writerReturn, held, he,
            WriteOutcome.isTemporary]
      · refine ⟨1, le_refl _, by omega, ?_⟩
        simp [session.nextWriterLoop, Conn.NextWriter, hr, session.WriteLock,
          session.WriteUnlock, session.emit, Conn.writeAt, writerReturn, held,
          WriteOutcome.isTemporary]

/-- C7: for every script of the active conn, `session.nextReader` makes `n` calls of
`conn.NextReader` with `1 ≤ n ≤ 30`: the first `n - 1` fail with a temporary
`payload.Error`, and call `n` is the first that succeeds or fails otherwise, or is call
30; what is returned is the outcome of call `n` (so the last temporary error when all 30
are temporary).  The read side of `upgradeLocker` is acquired `n` times and released
`n` times on a failing return, `n - 1` times on a successful one (held once).  The same
holds for `session.nextWriter`, `conn.NextWriter` and `writeLocker`. -/
theorem nextReader_nextWriter_bounded_retry (s : session) (ft : FrameType) (pt : PacketType) :
    (∃ n, 1 ≤ n ∧ n ≤ 30 ∧
      s.nextReader.2.conn.readCalls = s.conn.readCalls + n ∧
      (∀ i, i + 1 < n → (s.conn.readAt i).isTemporary = true) ∧
      (n < 30 → (s.conn.readAt (n - 1)).isTemporary = false) ∧
      s.nextReader.1 = readerReturn s.conn (s.conn.readAt (n - 1)) ∧
      s.nextReader.2.upgradeLocker.rlocks = s.upgradeLocker.rlocks + n ∧
      s.nextReader.2.upgradeLocker.runlocks + held s.nextReader.1
        = s.upgradeLocker.runlocks + n) ∧
    (∃ n, 1 ≤ n ∧ n ≤ 30 ∧
      (s.nextWriter ft pt).2.conn.writeCalls = s.conn.writeCalls + n ∧
      (∀ i, i + 1 < n → (s.conn.writeAt i).isTemporary = true) ∧
      (n < 30 → (s.conn.writeAt (n - 1)).isTemporary = false) ∧
      (s.nextWriter ft pt).1 = writerReturn s.conn ft pt (s.conn.writeAt (n - 1)) ∧
      (s.nextWriter ft pt).2.writeLocker.locks = s.writeLocker.locks + n ∧
      (s.nextWriter ft pt).2.writeLocker.unlocks + held (s.nextWriter ft pt).1
        = s.writeLocker.unlocks + n) := by
  constructor
  · obtain ⟨n, h1, h2, h3, h4, h5, h6, h7, h8, -⟩ := nextReaderLoop_spec 29 none s
    exact ⟨n, h1, h2, h3, h4, h5, h6, h7, h8⟩
  · obtain ⟨n, h1, h2, h3, h4, h5, h6, h7, h8, -⟩ := nextWriterLoop_spec ft pt 29 none s
    exact ⟨n, h1, h2, h3, h4, h5, h6, h7, h8⟩

/-! ### Close -/

theorem Conn_Close_spec (c : Conn) :
    c.Close.1 = (c.closes.head?).join ∧ c.Close.2.closes = c.closes.tail ∧
      c.Close.2.closeCalls = c.closeCalls + 1 ∧ c.Close.2.id = c.id ∧
      c.Close.2.closeOnce = true ∧ c.Close.2.reads = c.reads ∧ c.Close.2.writes = c.writes ∧
      c.Close.2.written = c.written ∧ c.Close.2.pauseCalls = c.pauseCalls ∧
      c.Close.2.resumeCalls = c.resumeCalls ∧ c.Close.2.pauser = c.pauser := by
  unfold Conn.Close
  rcases hc : c.closes with _ | ⟨e, rest⟩ <;> by_cases ho : c.closeOnce = true <;>
    simp [hc, ho]

theorem session_Close_spec (s : session) :
    s.Close.1 = (s.conn.closes.head?).join ∧
      s.Close.2.conn.closes = s.conn.closes.tail ∧
      s.Close.2.conn.closeCalls = s.conn.closeCalls + 1 ∧
      s.Close.2.closeOnce = true ∧
      s.Close.2.SID = s.SID ∧
      s.Close.2.removeCalls = (if s.closeOnce then s.removeCalls else s.removeCalls + 1) ∧
      s.Close.2.manager =
        (if s.closeOnce then s.manager else s.manager.filter (fun k => k != s.SID)) := by
  have hc := Conn_Close_spec s.conn
  by_cases ho : s.closeOnce = true <;>
    simp [session.Close, session.RLock, session.RUnlock, session.emit, session.managerRemove,
      ho, hc]

theorem session_closeTimes_closed (k : Nat) (s : session) (h : s.closeOnce = true) :
    (s.closeTimes k).2.removeCalls = s.removeCalls ∧
      (s.closeTimes k).2.manager = s.manager ∧
      (s.closeTimes k).2.conn.closeCalls = s.conn.closeCalls + k ∧
      (s.closeTimes k).1 = (List.range k).map (fun i => s.conn.closes.getD i none) := by
  induction k generalizing s with
  | zero => simp [session.closeTimes]
  | succ k ih =>
    obtain ⟨h1, h2, h3, h4, h5, h6, h7⟩ := session_Close_spec s
    obtain ⟨i1, i2, i3, i4⟩ := ih s.Close.2 h4
    simp only [h, if_true] at h6 h7
    refine ⟨?_, ?_, ?_, ?_⟩
    · simp only [session.closeTimes]; rw [i1, h6]
    · simp only [session.closeTimes]; rw [i2, h7]
    · simp only [session.closeTimes]; rw [i3, h3]; omega
    · simp only [session.closeTimes]
      rw [i4, h1, h2, List.range_succ_eq_map, List.map_cons, List.map_map]
      congr 1
      · cases s.conn.closes <;> simp
      · apply List.map_congr_left
        intro i _
        cases s.conn.closes <;> simp

/-- C6, as stated, fails: two calls of `session.Close` invoke the `Close` of the conn
twice (and a conn whose second `Close` reports an error makes the second call return it). -/
theorem Close_twice_closes_conn_twice :
    ((exampleSession (exampleConn 1 [] [])).closeTimes 2).2.conn.closeCalls = 2 ∧
    ((exampleSession (exampleConn 1 [] [])).closeTimes 2).2.removeCalls = 1 ∧
    ((exampleSession { exampleConn 1 [] [] with closes := [none, some Err.closed] }).closeTimes
        2).1 = [none, some Err.closed] := by
  decide

/-- C6 (amended): `K ≥ 1` calls of `session.Close` on a session not yet closed remove the
id from the manager exactly once; each call invokes the `Close` of the active conn (`K`
invocations in all) and returns what that invocation returned, so all `K` returns are
`nil` when the conn reports no close error. -/
theorem Close_K_times (K : Nat) (s : session) (hK : 1 ≤ K) (hlive : s.closeOnce = false) :
    (s.closeTimes K).2.removeCalls = s.removeCalls + 1 ∧
    s.SID ∉ (s.closeTimes K).2.manager ∧
    (s.closeTimes K).2.conn.closeCalls = s.conn.closeCalls + K ∧
    (s.closeTimes K).1 = (List.range K).map (fun i => s.conn.closes.getD i none) ∧
    ((∀ e ∈ s.conn.closes, e = none) → (s.closeTimes K).1 = List.replicate K none) := by
  obtain ⟨k, rfl⟩ : ∃ k, K = k + 1 := ⟨K - 1, by omega⟩
  obtain ⟨h1, h2, h3, h4, h5, h6, h7⟩ := session_Close_spec s
  obtain ⟨i1, i2, i3, i4⟩ := session_closeTimes_closed k s.Close.2 h4
  simp only [hlive, Bool.false_eq_true, if_false] at h6 h7
  have hret : (s.closeTimes (k + 1)).1
      = (List.range (k + 1)).map (fun i => s.conn.closes.getD i none) := by
    simp only [session.closeTimes]
    rw [i4, h1, h2, List.range_succ_eq_map, List.map_cons, List.map_map]
    congr 1
    · cases s.conn.closes <;> simp
    · apply List.map_congr_left
      intro i _
      cases s.conn.closes <;> simp
  refine ⟨?_, ?_, ?_, hret, ?_⟩
  · simp only [session.closeTimes]; rw [i1, h6]
  · simp only [session.closeTimes]; rw [i2, h7]
    simp
  · simp only [session.closeTimes]; rw [i3, h3]; omega
  · intro hall
    rw [hret]
    apply List.ext_getElem
    · simp
    · intro i hi1 hi2
      simp only [List.getElem_map, List.getElem_range, List.getElem_replicate]
      rcases hget : s.conn.closes[i]? with _ | e
      · simp [List.getD_eq_getElem?_getD, hget]
      · have hmem : e ∈ s.conn.closes := List.getElem?_mem hget
        simp [List.getD_eq_getElem?_getD, hget, hall e hmem]

/-- Witness for C6 (amended): three calls on a live session. -/
theorem Close_K_times_witness :
    ((exampleSession (exampleConn 1 [] [])).closeTimes 3).2.removeCalls = 0 + 1 ∧
    "sid-1" ∉ ((exampleSession (exampleConn 1 [] [])).closeTimes 3).2.manager ∧
    ((exampleSession (exampleConn 1 [] [])).closeTimes 3).2.conn.closeCalls = 0 + 3 ∧
    ((exampleSession (exampleConn 1 [] [])).closeTimes 3).1
      = (List.range 3).map (fun i => ([] : List (Option Err)).getD i none) ∧
    ((∀ e ∈ ([] : List (Option Err)), e = none) →
      ((exampleSession (exampleConn 1 [] [])).closeTimes 3).1 = List.replicate 3 none) :=
  Close_K_times 3 (exampleSession (exampleConn 1 [] [])) (by decide) rfl

/-! ### NextReader -/

/-- `setDeadline` returns after two passes, with both deadlines of the active conn set
to the current time plus `PingTimeout`. -/
theorem session_setDeadline_eq (s : session) :
    s.setDeadline = some
      { s with
        conn := { s.conn with readDeadline := some (s.now + s.PingTimeout),
                              writeDeadline := some (s.now + s.PingTimeout) }
        upgradeLocker := { s.upgradeLocker with rlocks := s.upgradeLocker.rlocks + 2,
                                                runlocks := s.upgradeLocker.runlocks + 2 }
        log := s.log ++ [.RLock, .RUnlock,
          .SetReadDeadline s.conn.id (s.now + s.PingTimeout),
          .SetWriteDeadline s.conn.id (s.now + s.PingTimeout), .RLock, .RUnlock] } := by
  simp [session.setDeadline, session.setDeadlineLoop, session.RLock, session.RUnlock,
    session.emit, Conn.SetReadDeadline, Conn.SetWriteDeadline]

/-- `nextReader` on a conn whose next outcome is a packet: one call, no retry. -/
theorem session_nextReader_deliver (s : session) (p : InPacket) (rest : List ReadOutcome)
    (h : s.conn.reads = .deliver p :: rest) :
    s.nextReader =
      (.ok (p.ft, p.pt,
          { conn := s.conn.id, body := p.body, closeErr := p.closeErr, closed := false,
            locker := true }),
        { s with
          conn := { s.conn with reads := rest, readCalls := s.conn.readCalls + 1 }
          upgradeLocker := { s.upgradeLocker with rlocks := s.upgradeLocker.rlocks + 1 }
          log := s.log ++ [.RLock, .ConnNextReader s.conn.id] }) := by
  simp [session.nextReader, session.nextReaderLoop, Conn.NextReader, h, session.RLock,
    session.emit, newReader]

/-- `nextWriter` on a conn whose coming `NextWriter` calls all succeed with a writer that
works: one call, no retry. -/
theorem session_nextWriter_healthy (s : session) (ft : FrameType) (pt : PacketType)
    (h : ∀ w ∈ s.conn.writes, w = .writer none none) :
    s.nextWriter ft pt =
      (.ok { conn := s.conn.id, ft := ft, pt := pt, buf := [], copyFail := none,
             closeErr := none, locker := true },
        { s with
          conn := { s.conn with writes := s.conn.writes.tail,
                                writeCalls := s.conn.writeCalls + 1 }
          writeLocker := { s.writeLocker with locks := s.writeLocker.locks + 1 }
          log := s.log ++ [.WriteLock, .ConnNextWriter s.conn.id ft pt] }) := by
  rcases hw : s.conn.writes with _ | ⟨w, ws⟩
  · simp [session.nextWriter, session.nextWriterLoop, Conn.NextWriter, hw, session.WriteLock,
      session.emit, newWriter]
  · have : w = .writer none none := h w (by simp [hw])
    subst this
    simp [session.nextWriter, session.nextWriterLoop, Conn.NextWriter, hw, session.WriteLock,
      session.emit, newWriter]

theorem NextReader_message (s : session) (p : InPacket) (ps : List InPacket)
    (h : readsPackets s (p :: ps)) (hp : p.pt = .MESSAGE) :
    ∃ r s1, s.NextReader = some (.ok (p.ft, r), s1) ∧ r.body = p.body ∧
      readsPackets (s1.closeReader r).2.2 ps ∧ (s1.closeReader r).2.2.SID = s.SID := by
  obtain ⟨hr, hw, hc⟩ := h
  simp only [List.map_cons] at hr
  refine ⟨?r, ?s1, ?h, ?_⟩
  case h =>
    simp only [session.NextReader, hr, List.length_cons, session.NextReaderLoop,
      session_nextReader_deliver s p _ hr, hp]
    exact rfl
  simpa [readsPackets, session.closeReader, session.RUnlock, session.emit, hc] using hw

theorem NextReader_close (s : session) (p : InPacket) (ps : List InPacket)
    (h : readsPackets s (p :: ps)) (hp : p.pt = .CLOSE) :
    ∃ s1, s.NextReader = some (.error .EOF, s1) ∧ s.SID ∉ s1.manager := by
  obtain ⟨hr, hw, hc⟩ := h
  simp only [List.map_cons] at hr
  refine ⟨?s1, ?h, ?_⟩
  case h =>
    simp only [session.NextReader, hr, List.length_cons, session.NextReaderLoop,
      session_nextReader_deliver s p _ hr, hp]
    exact rfl
  simp [session.closeReader, session.Close, session.RLock, session.RUnlock, session.emit,
    session.managerRemove, hc]

theorem NextReader_discard (s : session) (p : InPacket) (ps : List InPacket)
    (h : readsPackets s (p :: ps))
    (hp : p.pt = .OPEN ∨ p.pt = .PONG ∨ p.pt = .UPGRADE ∨ p.pt = .NOOP) :
    ∃ s1, s.NextReader = s1.NextReader ∧ readsPackets s1 ps ∧ s1.SID = s.SID := by
  obtain ⟨hr, hw, hc⟩ := h
  simp only [List.map_cons] at hr
  refine ⟨?s1, ?h, ?_⟩
  case h =>
    simp only [session.NextReader, hr, List.length_cons, session.NextReaderLoop,
      session_nextReader_deliver s p _ hr]
    rcases hp with hp | hp | hp | hp <;> simp only [hp] <;> exact rfl
  simpa [readsPackets, session.closeReader, session.RUnlock, session.emit, hc] using hw

theorem nextReaderLoop_frame (k : Nat) (err0 : Option Err) (s : session) :
    (s.nextReaderLoop k err0).2.conn.written = s.conn.written ∧
    (s.nextReaderLoop k err0).2.conn.id = s.conn.id ∧
    (s.nextReaderLoop k err0).2.PingTimeout = s.PingTimeout ∧
    (s.nextReaderLoop k err0).2.log.filter Event.isEcho = s.log.filter Event.isEcho := by
  induction k generalizing s err0 with
  | zero => simp [session.nextReaderLoop]
  | succ k ih =>
    rcases hr : s.conn.reads with _ | ⟨o, rest⟩
    · simp [session.nextReaderLoop, Conn.NextReader, hr, session.RLock, session.RUnlock,
        session.emit, Err.isTemporary, Err.closed, Event.isEcho]
    · rcases o with e | p
      · by_cases he : e.isTemporary = true
        · obtain ⟨s1, hs1, _, _, hid, _, _, _, _, hw, hp, hl⟩ :=
            nextReaderLoop_retry k err0 s e rest hr he
          obtain ⟨h1, h2, h3, h4⟩ := ih (some e) s1
          rw [hs1]
          exact ⟨h1.trans hw, h2.trans hid, h3.trans hp, h4.trans hl⟩
        · simp [session.nextReaderLoop, Conn.NextReader, hr, session.RLock, session.RUnlock,
            session.emit, he, Event.isEcho]
      · simp [session.nextReaderLoop, Conn.NextReader, hr, session.RLock, session.RUnlock,
          session.emit, Event.isEcho]

theorem nextWriterLoop_frame (ft : FrameType) (pt : PacketType) (k : Nat) (err0 : Option Err)
    (s : session) :
    (session.nextWriterLoop ft pt k err0 s).2.conn.written = s.conn.written ∧
    (session.nextWriterLoop ft pt k err0 s).2.conn.id = s.conn.id ∧
    (session.nextWriterLoop ft pt k err0 s).2.conn.readCalls = s.conn.readCalls ∧
    (session.nextWriterLoop ft pt k err0 s).2.PingTimeout = s.PingTimeout ∧
    (session.nextWriterLoop ft pt k err0 s).2.log.filter Event.isEcho
      = s.log.filter Event.isEcho := by
  induction k generalizing s err0 with
  | zero => simp [session.nextWriterLoop]
  | succ k ih =>
    rcases hr : s.conn.writes with _ | ⟨o, rest⟩
    · simp [session.nextWriterLoop, Conn.NextWriter, hr, session.WriteLock, session.emit,
        Event.isEcho]
    · rcases o with e | ⟨cf, ce⟩
      · by_cases he : e.isTemporary = true
        · obtain ⟨s1, hs1, _, _, hid, _, _, hw, hrc, hp, hl, _⟩ :=
            nextWriterLoop_retry ft pt k err0 s e rest hr he
          obtain ⟨h1, h2, h3, h4, h5⟩ := ih (some e) s1
          rw [hs1]
          exact ⟨h1.trans hw, h2.trans hid, h3.trans hrc, h4.trans hp, h5.trans hl⟩
        · simp [session.nextWriterLoop, Conn.NextWriter, hr, session.WriteLock,
            session.WriteUnlock, session.emit, he, Event.isEcho]
      · simp [session.nextWriterLoop, Conn.NextWriter, hr, session.WriteLock, session.emit,
          Event.isEcho]

theorem nextWriterLoop_reads (ft : FrameType) (pt : PacketType) (k : Nat) (err0 : Option Err)
    (s : session) :
    (session.nextWriterLoop ft pt k err0 s).2.conn.reads = s.conn.reads := by
  induction k generalizing s err0 with
  | zero => simp [session.nextWriterLoop]
  | succ k ih =>
    rcases hr : s.conn.writes with _ | ⟨o, rest⟩
    · simp [session.nextWriterLoop, Conn.NextWriter, hr, session.WriteLock, session.emit]
    · rcases o with e | ⟨cf, ce⟩
      · by_cases he : e.isTemporary = true
        · obtain ⟨s1, hs1, hrest⟩ := nextWriterLoop_retry ft pt k err0 s e rest hr he
          rw [hs1, ih]
          exact hrest.2.2.2.2.2.2.2.2.2
        · simp [session.nextWriterLoop, Conn.NextWriter, hr, session.WriteLock,
            session.WriteUnlock, session.emit, he]
      · simp [session.nextWriterLoop, Conn.NextWriter, hr, session.WriteLock, session.emit]

/-- A reader returned by `nextReader` is open, holds the read lock and has the body of
the packet the conn delivered. -/
theorem nextReader_ok_reader (s s1 : session) (ft : FrameType) (pt : PacketType) (r : Reader)
    (h : s.nextReader = (.ok (ft, pt, r), s1)) :
    r.closed = false ∧ r.locker = true ∧ r.conn = s.conn.id := by
  obtain ⟨n, -, -, -, -, -, h4, -⟩ := nextReaderLoop_spec 29 none s
  have h' : (s.nextReaderLoop (29 + 1) none).1 = .ok (ft, pt, r) := congrArg Prod.fst h
  rw [h'] at h4
  cases hra : s.conn.readAt (n - 1) with
  | fail e => rw [hra] at h4; simp [readerReturn] at h4
  | deliver p =>
    rw [hra] at h4
    simp only [readerReturn, newReader, Except.ok.injEq, Prod.mk.injEq] at h4
    obtain ⟨-, -, rfl⟩ := h4
    exact ⟨rfl, rfl, rfl⟩

/-- A writer returned by `nextWriter` is empty, of the requested frame kind and packet
type, and holds `writeLocker`. -/
theorem nextWriter_ok_writer (s s1 : session) (ft : FrameType) (pt : PacketType) (w : Writer)
    (h : s.nextWriter ft pt = (.ok w, s1)) :
    w.ft = ft ∧ w.pt = pt ∧ w.buf = [] ∧ w.locker = true ∧ w.conn = s.conn.id := by
  obtain ⟨n, -, -, -, -, -, h4, -⟩ := nextWriterLoop_spec ft pt 29 none s
  have h' : (session.nextWriterLoop ft pt (29 + 1) none s).1 = .ok w := congrArg Prod.fst h
  rw [h'] at h4
  cases hwa : s.conn.writeAt (n - 1) with
  | fail e => rw [hwa] at h4; simp [writerReturn] at h4
  | writer cf ce =>
    rw [hwa] at h4
    simp only [writerReturn, newWriter, Except.ok.injEq] at h4
    subst h4
    exact ⟨rfl, rfl, rfl, rfl, rfl⟩

/-! ### One pass of the loop of NextReader -/

/-- The loop of `NextReader` is the repetition of `NextReaderPass`. -/
theorem NextReaderLoop_pass (fuel : Nat) (s : session) :
    s.NextReaderLoop (fuel + 1) = session.afterPass fuel s.NextReaderPass := by
  rw [session.NextReaderLoop]
  unfold session.NextReaderPass
  rcases s.nextReader with ⟨res, s1⟩
  rcases res with eo | ⟨ft, pt, r⟩
  · rcases eo with _ | e <;> rfl
  · cases pt
    case PING =>
      simp only
      rcases s1.nextWriter ft .PONG with ⟨wres, s2⟩
      rcases wres with eo | w
      · rcases eo with _ | e <;> rfl
      · simp only
        rcases (s2.closeWriter (ioCopy w r).1).1 with _ | e
        · simp only
          rcases ((s2.closeWriter (ioCopy w r).1).2.closeReader (ioCopy w r).2.1).2.2.setDeadline
            with _ | s3 <;> rfl
        · rfl
    all_goals rfl

/-- One pass over a `PING` whose `PONG` is written without error ends in `next`, in the
state described. -/
theorem NextReaderPass_ping (s s1 s2 : session) (ft : FrameType) (r : Reader) (w : Writer)
    (hread : s.nextReader = (.ok (ft, .PING, r), s1))
    (hwrite : s1.nextWriter ft .PONG = (.ok w, s2))
    (hcopy : w.copyFail = none) (hclose : w.closeErr = none) :
    ∃ s' : session, s.NextReaderPass = some (.next s') ∧
      s'.conn.written = s2.conn.written ++ [{ ft := ft, pt := .PONG, body := r.body }] ∧
      s'.conn.readDeadline = some (s2.now + s2.PingTimeout) ∧
      s'.conn.writeDeadline = some (s2.now + s2.PingTimeout) ∧
      s'.conn.reads = s2.conn.reads ∧
      s'.conn.readCalls = s2.conn.readCalls ∧ s'.conn.id = s2.conn.id ∧
      s'.now = s2.now ∧ s'.PingTimeout = s2.PingTimeout ∧
      s'.log = s2.log ++
        [.WriterClose s2.conn.id { ft := ft, pt := .PONG, body := r.body } true, .WriteUnlock,
         .RUnlock, .ReaderClose r.conn, .RLock, .RUnlock,
         .SetReadDeadline s2.conn.id (s2.now + s2.PingTimeout),
         .SetWriteDeadline s2.conn.id (s2.now + s2.PingTimeout), .RLock, .RUnlock] := by
  obtain ⟨hrc, hrl, -⟩ := nextReader_ok_reader s s1 ft .PING r hread
  obtain ⟨hwf, hwp, hwb, hwl, -⟩ := nextWriter_ok_writer s1 s2 ft .PONG w hwrite
  refine ⟨?w, ?h, ?_⟩
  case h =>
    unfold session.NextReaderPass
    simp only [hread, hwrite, ioCopy, hcopy, session.closeWriter, Conn.closeWriter, hclose,
      hwl, if_true, session.closeReader, hrc, hrl, Bool.false_eq_true, if_false,
      session_setDeadline_eq, session.emit, session.WriteUnlock, session.RUnlock]
    exact rfl
  simp [hwf, hwp, hwb, hrc]

/-- One pass of the loop of `NextReader` over a `PING` whose `PONG` is written without
error: the state in which the loop goes on to its next pass. -/
theorem NextReaderLoop_ping (fuel : Nat) (s s1 s2 : session) (ft : FrameType) (r : Reader)
    (w : Writer)
    (hread : s.nextReader = (.ok (ft, .PING, r), s1))
    (hwrite : s1.nextWriter ft .PONG = (.ok w, s2))
    (hcopy : w.copyFail = none) (hclose : w.closeErr = none) :
    ∃ s' : session, s.NextReaderLoop (fuel + 1) = s'.NextReaderLoop fuel ∧
      s'.conn.written = s2.conn.written ++ [{ ft := ft, pt := .PONG, body := r.body }] ∧
      s'.conn.readDeadline = some (s2.now + s2.PingTimeout) ∧
      s'.conn.writeDeadline = some (s2.now + s2.PingTimeout) ∧
      s'.conn.reads = s2.conn.reads ∧ s'.conn.writes = s2.conn.writes ∧
      s'.conn.readCalls = s2.conn.readCalls ∧ s'.conn.id = s2.conn.id ∧
      s'.now = s2.now ∧ s'.PingTimeout = s2.PingTimeout ∧ s'.SID = s2.SID ∧
      s'.manager = s2.manager ∧ s'.closeOnce = s2.closeOnce ∧
      s'.log = s2.log ++
        [.WriterClose s2.conn.id { ft := ft, pt := .PONG, body := r.body } true, .WriteUnlock,
         .RUnlock, .ReaderClose r.conn, .RLock, .RUnlock,
         .SetReadDeadline s2.conn.id (s2.now + s2.PingTimeout),
         .SetWriteDeadline s2.conn.id (s2.now + s2.PingTimeout), .RLock, .RUnlock] := by
  obtain ⟨hrc, hrl, -⟩ := nextReader_ok_reader s s1 ft .PING r hread
  obtain ⟨hwf, hwp, hwb, hwl, -⟩ := nextWriter_ok_writer s1 s2 ft .PONG w hwrite
  refine ⟨?w, ?h, ?_⟩
  case h =>
    rw [session.NextReaderLoop]
    simp only [hread, hwrite, ioCopy, hcopy, session.closeWriter, Conn.closeWriter, hclose,
      hwl, if_true, session.closeReader, hrc, hrl, Bool.false_eq_true, if_false,
      session_setDeadline_eq, session.emit, session.WriteUnlock, session.RUnlock]
    exact rfl
  simp [hwf, hwp, hwb, hrc]

theorem NextReader_ping (s : session) (p : InPacket) (ps : List InPacket)
    (h : readsPackets s (p :: ps)) (hp : p.pt = .PING) :
    ∃ s1, s.NextReader = s1.NextReader ∧ readsPackets s1 ps ∧ s1.SID = s.SID := by
  obtain ⟨hr, hw, hc⟩ := h
  simp only [List.map_cons] at hr
  have hread := session_nextReader_deliver s p _ hr
  rw [hp] at hread
  have hwrite := session_nextWriter_healthy _ p.ft .PONG
    (show ∀ w ∈ (s.nextReader).2.conn.writes, w = .writer none none by
      rw [hread]; exact hw)
  rw [hread] at hwrite
  obtain ⟨s', hs', -, -, -, hreads, hwrites, -, -, -, -, hsid, -, hco, -⟩ :=
    NextReaderLoop_ping (ps.length + 1) s _ _ p.ft _ _ hread hwrite rfl rfl
  refine ⟨s', ?_, ⟨?_, ?_, ?_⟩, ?_⟩
  · simp only [session.NextReader, hr, List.length_cons, List.length_map, hs', hreads]
  · rw [hreads]
  · intro w hmem
    rw [hwrites] at hmem
    exact hw w (List.mem_of_mem_tail hmem)
  · rw [hco]; exact hc
  · rw [hsid]

theorem readTimes_congr (s s1 : session) (h : s.NextReader = s1.NextReader) (k : Nat) :
    (s.readTimes (k + 1)).1 = (s1.readTimes (k + 1)).1 ∧
    ((s1.readTimes (k + 1)).1 ≠ [] → (s.readTimes (k + 1)).2 = (s1.readTimes (k + 1)).2) := by
  simp only [session.readTimes, h]
  rcases s1.NextReader with _ | ⟨res, s2⟩
  · simp
  · rcases res with e | ⟨ft, r⟩ <;> simp

theorem readTimes_succ_ok (s s1 : session) (ft : FrameType) (r : Reader) (k : Nat)
    (h : s.NextReader = some (.ok (ft, r), s1)) :
    s.readTimes (k + 1) =
      (.ok (ft, r.body) :: ((s1.closeReader r).2.2.readTimes k).1,
        ((s1.closeReader r).2.2.readTimes k).2) := by
  simp only [session.readTimes, h]

theorem messagesBeforeClose_cons (p : InPacket) (ps : List InPacket) :
    messagesBeforeClose (p :: ps) =
      if p.pt = .CLOSE then []
      else if p.pt = .MESSAGE then .ok (p.ft, p.body) :: messagesBeforeClose ps
      else messagesBeforeClose ps := by
  unfold messagesBeforeClose beforeClose
  by_cases h1 : p.pt = .CLOSE
  · simp [List.takeWhile_cons, h1]
  · by_cases h2 : p.pt = .MESSAGE
    · simp [List.takeWhile_cons, h1, h2, List.filter_cons]
    · simp [List.takeWhile_cons, h1, h2, List.filter_cons]

/-- C1: let the active conn deliver the packets `ps` one per call without error, with
every `PONG` write succeeding, on a session not yet closed.  Then the successive results
of `session.NextReader` are exactly the (frame kind, body) pairs of the `MESSAGE`
packets before the first `CLOSE`, in order (packets of every other type are not
returned); and if `ps` has a `CLOSE`, the next call returns `io.EOF` and leaves the
session id out of the manager. -/
theorem NextReader_returns_messages_in_order (ps : List InPacket) (s : session)
    (hreads : s.conn.reads = ps.map .deliver)
    (hwrites : ∀ w ∈ s.conn.writes, w = .writer none none)
    (hlive : s.closeOnce = false) :
    (s.readTimes (messagesBeforeClose ps).length).1 = messagesBeforeClose ps ∧
    ((∃ p ∈ ps, p.pt = .CLOSE) →
      (s.readTimes ((messagesBeforeClose ps).length + 1)).1
          = messagesBeforeClose ps ++ [.error .EOF] ∧
      s.SID ∉ (s.readTimes ((messagesBeforeClose ps).length + 1)).2.manager) := by
  have key : ∀ (ps : List InPacket) (s : session), readsPackets s ps →
      (s.readTimes (messagesBeforeClose ps).length).1 = messagesBeforeClose ps ∧
      ((∃ p ∈ ps, p.pt = .CLOSE) →
        (s.readTimes ((messagesBeforeClose ps).length + 1)).1
            = messagesBeforeClose ps ++ [.error .EOF] ∧
        s.SID ∉ (s.readTimes ((messagesBeforeClose ps).length + 1)).2.manager) := by
    intro ps
    induction ps with
    | nil =>
      intro s h
      refine ⟨by simp [messagesBeforeClose, beforeClose, session.readTimes], ?_⟩
      rintro ⟨p, hp, -⟩
      simp at hp
    | cons p ps ih =>
      intro s h
      rw [messagesBeforeClose_cons]
      by_cases h1 : p.pt = .CLOSE
      · obtain ⟨s1, hs1, hm⟩ := NextReader_close s p ps h h1
        rw [if_pos h1]
        simp only [List.length_nil, List.nil_append]
        refine ⟨by simp [session.readTimes], fun _ => ?_⟩
        simp only [session.readTimes, hs1]
        exact ⟨trivial, hm⟩
      · by_cases h2 : p.pt = .MESSAGE
        · obtain ⟨r, s1, hs1, hb, hinv, hsid⟩ := NextReader_message s p ps h h2
          obtain ⟨ih1, ih2⟩ := ih _ hinv
          rw [if_neg h1, if_pos h2]
          simp only [List.length_cons, List.cons_append]
          refine ⟨?_, fun hex => ?_⟩
          · rw [readTimes_succ_ok s s1 p.ft r _ hs1, hb, ih1]
          · have hex' : ∃ q ∈ ps, q.pt = .CLOSE := by
              obtain ⟨q, hq, hqc⟩ := hex
              rcases List.mem_cons.1 hq with rfl | hq
              · exact absurd hqc h1
              · exact ⟨q, hq, hqc⟩
            obtain ⟨ih3, ih4⟩ := ih2 hex'
            rw [hsid] at ih4
            rw [readTimes_succ_ok s s1 p.ft r _ hs1, hb, ih3]
            exact ⟨rfl, ih4⟩
        · have hstep : ∃ s1, s.NextReader = s1.NextReader ∧ readsPackets s1 ps ∧ s1.SID = s.SID := by
            rcases hpt : p.pt with _ | _ | _ | _ | _ | _ | _
            · exact NextReader_discard s p ps h (Or.inl hpt)
            · exact absurd hpt h1
            · exact NextReader_ping s p ps h hpt
            · exact NextReader_discard s p ps h (Or.inr (Or.inl hpt))
            · exact absurd hpt h2
            · exact NextReader_discard s p ps h (Or.inr (Or.inr (Or.inl hpt)))
            · exact NextReader_discard s p ps h (Or.inr (Or.inr (Or.inr hpt)))
          obtain ⟨s1, hs1, hinv, hsid⟩ := hstep
          obtain ⟨ih1, ih2⟩ := ih s1 hinv
          rw [if_neg h1, if_neg h2]
          refine ⟨?_, fun hex => ?_⟩
          · rcases hl : (messagesBeforeClose ps).length with _ | k
            · simp only [session.readTimes]
              exact (List.length_eq_zero.1 hl).symm
            · rw [(readTimes_congr s s1 hs1 k).1, ← hl]
              exact ih1
          · have hex' : ∃ q ∈ ps, q.pt = .CLOSE := by
              obtain ⟨q, hq, hqc⟩ := hex
              rcases List.mem_cons.1 hq with rfl | hq
              · exact absurd hqc h1
              · exact ⟨q, hq, hqc⟩
            obtain ⟨ih3, ih4⟩ := ih2 hex'
            obtain ⟨hc1, hc2⟩ := readTimes_congr s s1 hs1 (messagesBeforeClose ps).length
            rw [hc1, hc2 (by rw [ih3]; simp), ← hsid]
            exact ⟨ih3, ih4⟩
  exact key ps s ⟨hreads, hwrites, hlive⟩

/-- Witness for C1: on `examplePackets` the application gets the two messages that
precede the `CLOSE`, then `io.EOF`, and the id is no longer in the manager. -/
theorem NextReader_returns_messages_in_order_witness :
    ((exampleSession (exampleConn 1 (examplePackets.map .deliver) [])).readTimes 2).1
      = [.ok (.TEXT, [104, 105]), .ok (.BINARY, [7])] ∧
    ((exampleSession (exampleConn 1 (examplePackets.map .deliver) [])).readTimes 3).1
      = [.ok (.TEXT, [104, 105]), .ok (.BINARY, [7]), .error .EOF] ∧
    "sid-1" ∉
      ((exampleSession (exampleConn 1 (examplePackets.map .deliver) [])).readTimes 3).2.manager :=
  have h := NextReader_returns_messages_in_order examplePackets
    (exampleSession (exampleConn 1 (examplePackets.map .deliver) [])) rfl
    (fun _ hw => absurd hw (List.not_mem_nil _)) rfl
  ⟨h.1, h.2 ⟨{ ft := .TEXT, pt := .CLOSE, body := [] }, by decide, rfl⟩⟩

/-- C2, as stated, fails, in each of the three ways the `PONG` write can fail.
(1) The conn refuses the `PONG` writer with a permanent error: no packet is written and
no deadline set; `NextReader` closes the session and returns the error.  (2) The writer's
`Close` fails: the same.  (3) The copy of the body stops after one byte with an error,
which the code ignores: the `PONG` that is committed has only the first byte of the
body. -/
theorem NextReader_ping_without_pong :
    ((exampleSession (exampleConn 1
        [.deliver { ft := .TEXT, pt := .PING, body := [112] }]
        [.fail (.other "broken pipe")])).NextReader.map
      (fun res => (res.1, res.2.conn.written, res.2.conn.readDeadline,
        res.2.conn.writeDeadline, res.2.conn.closeCalls, res.2.manager))
    = some (.error (.other "broken pipe"), [], none, none, 1, ["sid-0"])) ∧
    ((exampleSession (exampleConn 1
        [.deliver { ft := .TEXT, pt := .PING, body := [112] }]
        [.writer none (some (.other "broken pipe"))])).NextReader.map
      (fun res => (res.1, res.2.conn.written, res.2.conn.readDeadline,
        res.2.conn.writeDeadline, res.2.conn.closeCalls, res.2.manager))
    = some (.error (.other "broken pipe"), [], none, none, 1, ["sid-0"])) ∧
    ((exampleSession (exampleConn 1
        [.deliver { ft := .TEXT, pt := .PING, body := [112, 114] }]
        [.writer (some (1, .other "short write")) none])).NextReaderPass.map
      (fun p => match p with
        | .next s => some (s.conn.written, s.conn.readDeadline)
        | .done _ _ => none)
    = some (some ([{ ft := .TEXT, pt := .PONG, body := [112] }], some 61000))) := by
  refine ⟨?_, ?_, ?_⟩ <;> rfl

/-- C2 (amended): for every `PING` with frame kind `ft` that `nextReader` delivers (reader
`r`, body `r.body`) and for which `nextWriter` obtains the `PONG` writer and the copy and
the writer's `Close` succeed, the pass of the loop of `session.NextReader` does not
return (the `PING` is not handed to the caller): it ends in `next s'`, so that for every
fuel the loop continues from `s'` with its next read.  In `s'` no further read has been
made since the `PING` was delivered, exactly one packet has been committed to the active
conn - `PONG`, frame kind `ft`, body `r.body` - and, after that writer was closed, both
deadlines of the active conn have been set to the current time plus `PingTimeout`. -/
theorem NextReader_echoes_ping (s s1 s2 : session) (ft : FrameType) (r : Reader)
    (w : Writer)
    (hread : s.nextReader = (.ok (ft, .PING, r), s1))
    (hwrite : s1.nextWriter ft .PONG = (.ok w, s2))
    (hcopy : w.copyFail = none) (hclose : w.closeErr = none) :
    ∃ s' : session, s.NextReaderPass = some (.next s') ∧
      (∀ fuel, s.NextReaderLoop (fuel + 1) = s'.NextReaderLoop fuel) ∧
      s'.conn.id = s.conn.id ∧
      s'.conn.reads = s1.conn.reads ∧
      s'.conn.readCalls = s1.conn.readCalls ∧
      s'.conn.written = s.conn.written ++ [{ ft := ft, pt := .PONG, body := r.body }] ∧
      s'.conn.readDeadline = some (s'.now + s.PingTimeout) ∧
      s'.conn.writeDeadline = some (s'.now + s.PingTimeout) ∧
      s'.log.filter Event.isEcho = s.log.filter Event.isEcho ++
        [.WriterClose s.conn.id { ft := ft, pt := .PONG, body := r.body } true,
         .SetReadDeadline s.conn.id (s'.now + s.PingTimeout),
         .SetWriteDeadline s.conn.id (s'.now + s.PingTimeout)] := by
  obtain ⟨s', hs', hwr, hrd, hwd, hreads, hrc, hid, hnow, hpt, hlog⟩ :=
    NextReaderPass_ping s s1 s2 ft r w hread hwrite hcopy hclose
  have hs1 : (s.nextReaderLoop 30 none).2 = s1 := congrArg Prod.snd hread
  have hs2 : (session.nextWriterLoop ft .PONG 30 none s1).2 = s2 := congrArg Prod.snd hwrite
  obtain ⟨r1, r2, r3, r4⟩ := nextReaderLoop_frame 30 none s
  obtain ⟨w1, w2, w3, w4, w5⟩ := nextWriterLoop_frame ft .PONG 30 none s1
  have w6 := nextWriterLoop_reads ft .PONG 30 none s1
  rw [hs1] at r1 r2 r3 r4
  rw [hs2] at w1 w2 w3 w4 w5 w6
  have hid2 : s2.conn.id = s.conn.id := w2.trans r2
  have hpt2 : s2.PingTimeout = s.PingTimeout := w4.trans r3
  refine ⟨s', hs', ?_, hid.trans hid2, hreads.trans w6, hrc.trans w3, ?_, ?_, ?_, ?_⟩
  · intro fuel
    rw [NextReaderLoop_pass, hs']
    rfl
  · rw [hwr, w1, r1]
  · rw [hrd, hnow, hpt2]
  · rw [hwd, hnow, hpt2]
  · rw [hlog, hnow, hpt2, hid2, List.filter_append, w5, r4]
    simp [Event.isEcho]

/-- Witness for C2 (amended): on `examplePingSession` the `PONG` writer is obtained at the
second attempt, after a temporary error and a pause of 50 ms. -/
theorem NextReader_echoes_ping_witness :
    ∃ s' : session, examplePingSession.NextReaderPass = some (.next s') ∧
      (∀ fuel, examplePingSession.NextReaderLoop (fuel + 1) = s'.NextReaderLoop fuel) ∧
      s'.conn.id = examplePingSession.conn.id ∧
      s'.conn.reads = examplePingSession.nextReader.2.conn.reads ∧
      s'.conn.readCalls = examplePingSession.nextReader.2.conn.readCalls ∧
      s'.conn.written = examplePingSession.conn.written ++
        [{ ft := .TEXT, pt := .PONG, body := [112, 114, 111, 98, 101] }] ∧
      s'.conn.readDeadline = some (s'.now + examplePingSession.PingTimeout) ∧
      s'.conn.writeDeadline = some (s'.now + examplePingSession.PingTimeout) ∧
      s'.log.filter Event.isEcho = examplePingSession.log.filter Event.isEcho ++
        [.WriterClose examplePingSession.conn.id
            { ft := .TEXT, pt := .PONG, body := [112, 114, 111, 98, 101] } true,
         .SetReadDeadline examplePingSession.conn.id (s'.now + examplePingSession.PingTimeout),
         .SetWriteDeadline examplePingSession.conn.id
            (s'.now + examplePingSession.PingTimeout)] :=
  NextReader_echoes_ping examplePingSession examplePingSession.nextReader.2
    (examplePingSession.nextReader.2.nextWriter .TEXT .PONG).2 .TEXT
    { conn := 1, body := [112, 114, 111, 98, 101], closeErr := none, closed := false,
      locker := true }
    { conn := 1, ft := .TEXT, pt := .PONG, buf := [], copyFail := none, closeErr := none,
      locker := true }
    rfl rfl rfl rfl

/-- C3 fails on the code: when `conn.NextReader` fails with a permanent error,
`session.NextReader` returns that error but does not close the session - the id stays in
the manager, `closeOnce` is unused and the `Close` of the conn is not called. -/
theorem NextReader_permanent_error_leaves_session_open :
    (exampleSession (exampleConn 1 [.fail (.other "broken pipe")] [])).NextReader.map
      (fun res => (res.1, res.2.manager, res.2.closeOnce, res.2.removeCalls,
        res.2.conn.closeCalls, res.2.conn.closed))
    = some (.error (.other "broken pipe"), ["sid-0", "sid-1"], false, 0, 0, false) := by
  rfl

/-! ### upgrading -/

theorem Conn_Close_id (c : Conn) : c.Close.2.id = c.id := (Conn_Close_spec c).2.2.2.1

theorem Conn_Close_closeCalls (c : Conn) : c.Close.2.closeCalls = c.closeCalls + 1 :=
  (Conn_Close_spec c).2.2.1

theorem Conn_Close_pauseCalls (c : Conn) : c.Close.2.pauseCalls = c.pauseCalls :=
  (Conn_Close_spec c).2.2.2.2.2.2.2.2.1

theorem Conn_Close_resumeCalls (c : Conn) : c.Close.2.resumeCalls = c.resumeCalls :=
  (Conn_Close_spec c).2.2.2.2.2.2.2.2.2.1

/-- C4: if the current conn of the session is a `Pauser` and the new conn delivers a
`PING` and then an `UPGRADE` with every reader and writer operation succeeding, then
after `session.upgrading(t, conn)` the field `conn` is the new conn and `transport` is
`t`; the only events on the write side of `upgradeLocker` and the only assignments to the
two fields are `Lock`, `conn = ...`, `transport = ...`, `Unlock`, in this order (both
fields are assigned inside one write-locked section); the old conn has been paused once,
closed once and not resumed, and the new conn has not been closed. -/
theorem upgrading_swaps_conn_and_transport (s : session) (t : String) (conn : Conn)
    (h : handshakeCompletes s conn = true) :
    (s.upgrading t conn).1.conn.id = conn.id ∧
    (s.upgrading t conn).1.transport = t ∧
    (s.upgrading t conn).1.log.filter Event.isSwap =
      s.log.filter Event.isSwap ++ [.Lock, .SetConn conn.id, .SetTransport t, .Unlock] ∧
    (s.upgrading t conn).2.id = s.conn.id ∧
    (s.upgrading t conn).2.pauseCalls = s.conn.pauseCalls + 1 ∧
    (s.upgrading t conn).2.closeCalls = s.conn.closeCalls + 1 ∧
    (s.upgrading t conn).2.resumeCalls = s.conn.resumeCalls ∧
    (s.upgrading t conn).1.conn.closeCalls = conn.closeCalls := by
  unfold handshakeCompletes at h
  rcases hr : conn.reads with _ | ⟨o1, _ | ⟨o2, rest⟩⟩
  · simp [hr] at h
  · rcases o1 with e | p <;> simp [hr] at h
  · rcases o1 with e1 | p1
    · simp [hr] at h
    · rcases o2 with e2 | p2
      · simp [hr] at h
      · simp only [hr, Bool.and_eq_true, beq_iff_eq, Option.isNone_iff_eq_none] at h
        obtain ⟨⟨⟨⟨⟨h1, h2⟩, h3⟩, h4⟩, h5⟩, h6⟩ := h
        rcases hw : conn.writes with _ | ⟨w, ws⟩
        · simp [session.upgrading, Conn.NextReader, Conn.NextWriter, Conn.SetReadDeadline,
            Conn.SetWriteDeadline, hr, hw, h1, h2, h4, h5, h6, session.closeReader, session.emit,
            ioCopy, Conn.closeWriter, session.RLock, session.RUnlock, session.Lock,
            session.Unlock, Conn.Pause, Event.isSwap, Conn_Close_id, Conn_Close_closeCalls,
            Conn_Close_pauseCalls, Conn_Close_resumeCalls]
        · rcases w with e | ⟨cf, ce⟩
          · simp [hw] at h3
          · simp only [hw, Bool.and_eq_true, Option.isNone_iff_eq_none] at h3
            obtain ⟨rfl, rfl⟩ := h3
            simp [session.upgrading, Conn.NextReader, Conn.NextWriter, Conn.SetReadDeadline,
              Conn.SetWriteDeadline, hr, hw, h1, h2, h4, h5, h6, session.closeReader,
              session.emit, ioCopy, Conn.closeWriter, session.RLock, session.RUnlock,
              session.Lock, session.Unlock, Conn.Pause, Event.isSwap, Conn_Close_id,
              Conn_Close_closeCalls, Conn_Close_pauseCalls, Conn_Close_resumeCalls]

theorem abortUpgrade_spec (s : session) (conn : Conn) :
    (s.abortUpgrade conn).1.conn = s.conn ∧
    (s.abortUpgrade conn).1.transport = s.transport ∧
    (s.abortUpgrade conn).1.log.filter Event.isSwap = s.log.filter Event.isSwap ∧
    (s.abortUpgrade conn).2.id = conn.id ∧
    (s.abortUpgrade conn).2.closeCalls = conn.closeCalls + 1 := by
  simp [session.abortUpgrade, session.emit, Event.isSwap, Conn_Close_id, Conn_Close_closeCalls]

theorem abortUpgradeResume_spec (s : session) (conn : Conn) :
    (s.abortUpgradeResume conn).1.conn.id = s.conn.id ∧
    (s.abortUpgradeResume conn).1.conn.pauseCalls = s.conn.pauseCalls ∧
    (s.abortUpgradeResume conn).1.conn.resumeCalls = s.conn.resumeCalls + 1 ∧
    (s.abortUpgradeResume conn).1.conn.closeCalls = s.conn.closeCalls ∧
    (s.abortUpgradeResume conn).1.conn.paused = false ∧
    (s.abortUpgradeResume conn).1.transport = s.transport ∧
    (s.abortUpgradeResume conn).1.log.filter Event.isSwap = s.log.filter Event.isSwap ∧
    (s.abortUpgradeResume conn).2.id = conn.id ∧
    (s.abortUpgradeResume conn).2.closeCalls = conn.closeCalls + 1 := by
  simp [session.abortUpgradeResume, session.abortUpgrade, session.emit, Event.isSwap,
    Conn.Resume, Conn_Close_id, Conn_Close_closeCalls]

theorem Conn_Close_paused (c : Conn) : c.Close.2.paused = c.paused := by
  unfold Conn.Close
  rcases hc : c.closes with _ | ⟨e, rest⟩ <;> by_cases ho : c.closeOnce = true <;>
    simp [hc, ho]

/-- C5: whenever the upgrade handshake deviates (the condition `handshakeCompletes` fails:
a read on the new conn fails or yields the wrong packet type, closing a reader fails,
obtaining, writing or closing the `PONG` writer fails, or the current conn is no
`Pauser`), the fields `conn` and `transport` of the session are as before and never
assigned, the old conn is not closed, the `Close` of the new conn is called once, and the
old conn is either not paused and not resumed, or paused once and resumed once. -/
theorem upgrading_deviation_leaves_session (s : session) (t : String) (conn : Conn)
    (h : handshakeCompletes s conn = false) :
    (s.upgrading t conn).1.conn.id = s.conn.id ∧
    (s.upgrading t conn).1.transport = s.transport ∧
    (s.upgrading t conn).1.log.filter Event.isSwap = s.log.filter Event.isSwap ∧
    (s.upgrading t conn).2.id = conn.id ∧
    (s.upgrading t conn).2.closeCalls = conn.closeCalls + 1 ∧
    (s.upgrading t conn).1.conn.closeCalls = s.conn.closeCalls ∧
    (((s.upgrading t conn).1.conn.pauseCalls = s.conn.pauseCalls ∧
        (s.upgrading t conn).1.conn.resumeCalls = s.conn.resumeCalls ∧
        (s.upgrading t conn).1.conn.paused = s.conn.paused) ∨
      ((s.upgrading t conn).1.conn.pauseCalls = s.conn.pauseCalls + 1 ∧
        (s.upgrading t conn).1.conn.resumeCalls = s.conn.resumeCalls + 1 ∧
        (s.upgrading t conn).1.conn.paused = false)) := by
  unfold handshakeCompletes at h
  rcases hr : conn.reads with _ | ⟨o1, rest1⟩
  · simp [session.upgrading, session.abortUpgrade, session.abortUpgradeResume,
      Conn.NextReader, Conn.NextWriter, Conn.SetReadDeadline, Conn.SetWriteDeadline,
      session.closeReader, session.emit, ioCopy, Conn.closeWriter, session.RLock,
      session.RUnlock, Conn.Pause, Conn.Resume, Event.isSwap, Conn_Close_id,
      Conn_Close_closeCalls, Conn_Close_pauseCalls, Conn_Close_resumeCalls, Conn_Close_paused, hr, Err.closed]
  rcases o1 with e1 | p1
  · simp [session.upgrading, session.abortUpgrade, session.abortUpgradeResume,
      Conn.NextReader, Conn.NextWriter, Conn.SetReadDeadline, Conn.SetWriteDeadline,
      session.closeReader, session.emit, ioCopy, Conn.closeWriter, session.RLock,
      session.RUnlock, Conn.Pause, Conn.Resume, Event.isSwap, Conn_Close_id,
      Conn_Close_closeCalls, Conn_Close_pauseCalls, Conn_Close_resumeCalls, Conn_Close_paused, hr]
  by_cases h1 : p1.pt = .PING
  swap
  · simp [session.upgrading, session.abortUpgrade, session.abortUpgradeResume,
      Conn.NextReader, Conn.NextWriter, Conn.SetReadDeadline, Conn.SetWriteDeadline,
      session.closeReader, session.emit, ioCopy, Conn.closeWriter, session.RLock,
      session.RUnlock, Conn.Pause, Conn.Resume, Event.isSwap, Conn_Close_id,
      Conn_Close_closeCalls, Conn_Close_pauseCalls, Conn_Close_resumeCalls, Conn_Close_paused, hr, h1]
  rcases h2 : p1.closeErr with _ | ce1
  swap
  · simp [session.upgrading, session.abortUpgrade, session.abortUpgradeResume,
      Conn.NextReader, Conn.NextWriter, Conn.SetReadDeadline, Conn.SetWriteDeadline,
      session.closeReader, session.emit, ioCopy, Conn.closeWriter, session.RLock,
      session.RUnlock, Conn.Pause, Conn.Resume, Event.isSwap, Conn_Close_id,
      Conn_Close_closeCalls, Conn_Close_pauseCalls, Conn_Close_resumeCalls, Conn_Close_paused, hr, h1, h2]
  have hwcases : conn.writes = [] ∨ (∃ ws, conn.writes = .writer none none :: ws) ∨
      (∃ e ws, conn.writes = .fail e :: ws) ∨
      (∃ n e ce ws, conn.writes = .writer (some (n, e)) ce :: ws) ∨
      (∃ e ws, conn.writes = .writer none (some e) :: ws) := by
    rcases conn.writes with _ | ⟨w, ws⟩
    · exact Or.inl rfl
    · rcases w with e | ⟨cf, ce⟩
      · exact Or.inr (Or.inr (Or.inl ⟨e, ws, rfl⟩))
      · rcases cf with _ | ⟨n, e⟩
        · rcases ce with _ | e
          · exact Or.inr (Or.inl ⟨ws, rfl⟩)
          · exact Or.inr (Or.inr (Or.inr (Or.inr ⟨e, ws, rfl⟩)))
        · exact Or.inr (Or.inr (Or.inr (Or.inl ⟨n, e, ce, ws, rfl⟩)))
  rcases hwcases with hw | ⟨ws, hw⟩ | ⟨e, ws, hw⟩ | ⟨n, e, ce, ws, hw⟩ | ⟨e, ws, hw⟩
  · by_cases h4 : s.conn.pauser = true
    swap
    · simp [session.upgrading, session.abortUpgrade, session.abortUpgradeResume,
      Conn.NextReader, Conn.NextWriter, Conn.SetReadDeadline, Conn.SetWriteDeadline,
      session.closeReader, session.emit, ioCopy, Conn.closeWriter, session.RLock,
      session.RUnlock, Conn.Pause, Conn.Resume, Event.isSwap, Conn_Close_id,
      Conn_Close_closeCalls, Conn_Close_pauseCalls, Conn_Close_resumeCalls, Conn_Close_paused, hr, h1, h2, hw, h4]
    rcases rest1 with _ | ⟨o2, rest2⟩
    · simp [session.upgrading, session.abortUpgrade, session.abortUpgradeResume,
      Conn.NextReader, Conn.NextWriter, Conn.SetReadDeadline, Conn.SetWriteDeadline,
      session.closeReader, session.emit, ioCopy, Conn.closeWriter, session.RLock,
      session.RUnlock, Conn.Pause, Conn.Resume, Event.isSwap, Conn_Close_id,
      Conn_Close_closeCalls, Conn_Close_pauseCalls, Conn_Close_resumeCalls, Conn_Close_paused, hr, h1, h2, hw, h4, Err.closed]
    rcases o2 with e2 | p2
    · simp [session.upgrading, session.abortUpgrade, session.abortUpgradeResume,
      Conn.NextReader, Conn.NextWriter, Conn.SetReadDeadline, Conn.SetWriteDeadline,
      session.closeReader, session.emit, ioCopy, Conn.closeWriter, session.RLock,
      session.RUnlock, Conn.Pause, Conn.Resume, Event.isSwap, Conn_Close_id,
      Conn_Close_closeCalls, Conn_Close_pauseCalls, Conn_Close_resumeCalls, Conn_Close_paused, hr, h1, h2, hw, h4]
    by_cases h5 : p2.pt = .UPGRADE
    swap
    · simp [session.upgrading, session.abortUpgrade, session.abortUpgradeResume,
      Conn.NextReader, Conn.NextWriter, Conn.SetReadDeadline, Conn.SetWriteDeadline,
      session.closeReader, session.emit, ioCopy, Conn.closeWriter, session.RLock,
      session.RUnlock, Conn.Pause, Conn.Resume, Event.isSwap, Conn_Close_id,
      Conn_Close_closeCalls, Conn_Close_pauseCalls, Conn_Close_resumeCalls, Conn_Close_paused, hr, h1, h2, hw, h4, h5]
    rcases h6 : p2.closeErr with _ | ce2
    swap
    · simp [session.upgrading, session.abortUpgrade, session.abortUpgradeResume,
      Conn.NextReader, Conn.NextWriter, Conn.SetReadDeadline, Conn.SetWriteDeadline,
      session.closeReader, session.emit, ioCopy, Conn.closeWriter, session.RLock,
      session.RUnlock, Conn.Pause, Conn.Resume, Event.isSwap, Conn_Close_id,
      Conn_Close_closeCalls, Conn_Close_pauseCalls, Conn_Close_resumeCalls, Conn_Close_paused, hr, h1, h2, hw, h4, h5, h6]
    simp [hr, h1, h2, hw, h4, h5, h6] at h
  · by_cases h4 : s.conn.pauser = true
    swap
    · simp [session.upgrading, session.abortUpgrade, session.abortUpgradeResume,
      Conn.NextReader, Conn.NextWriter, Conn.SetReadDeadline, Conn.SetWriteDeadline,
      session.closeReader, session.emit, ioCopy, Conn.closeWriter, session.RLock,
      session.RUnlock, Conn.Pause, Conn.Resume, Event.isSwap, Conn_Close_id,
      Conn_Close_closeCalls, Conn_Close_pauseCalls, Conn_Close_resumeCalls, Conn_Close_paused, hr, h1, h2, hw, h4]
    rcases rest1 with _ | ⟨o2, rest2⟩
    · simp [session.upgrading, session.abortUpgrade, session.abortUpgradeResume,
      Conn.NextReader, Conn.NextWriter, Conn.SetReadDeadline, Conn.SetWriteDeadline,
      session.closeReader, session.emit, ioCopy, Conn.closeWriter, session.RLock,
      session.RUnlock, Conn.Pause, Conn.Resume, Event.isSwap, Conn_Close_id,
      Conn_Close_closeCalls, Conn_Close_pauseCalls, Conn_Close_resumeCalls, Conn_Close_paused, hr, h1, h2, hw, h4, Err.closed]
    rcases o2 with e2 | p2
    · simp [session.upgrading, session.abortUpgrade, session.abortUpgradeResume,
      Conn.NextReader, Conn.NextWriter, Conn.SetReadDeadline, Conn.SetWriteDeadline,
      session.closeReader, session.emit, ioCopy, Conn.closeWriter, session.RLock,
      session.RUnlock, Conn.Pause, Conn.Resume, Event.isSwap, Conn_Close_id,
      Conn_Close_closeCalls, Conn_Close_pauseCalls, Conn_Close_resumeCalls, Conn_Close_paused, hr, h1, h2, hw, h4]
    by_cases h5 : p2.pt = .UPGRADE
    swap
    · simp [session.upgrading, session.abortUpgrade, session.abortUpgradeResume,
      Conn.NextReader, Conn.NextWriter, Conn.SetReadDeadline, Conn.SetWriteDeadline,
      session.closeReader, session.emit, ioCopy, Conn.closeWriter, session.RLock,
      session.RUnlock, Conn.Pause, Conn.Resume, Event.isSwap, Conn_Close_id,
      Conn_Close_closeCalls, Conn_Close_pauseCalls, Conn_Close_resumeCalls, Conn_Close_paused, hr, h1, h2, hw, h4, h5]
    rcases h6 : p2.closeErr with _ | ce2
    swap
    · simp [session.upgrading, session.abortUpgrade, session.abortUpgradeResume,
      Conn.NextReader, Conn.NextWriter, Conn.SetReadDeadline, Conn.SetWriteDeadline,
      session.closeReader, session.emit, ioCopy, Conn.closeWriter, session.RLock,
      session.RUnlock, Conn.Pause, Conn.Resume, Event.isSwap, Conn_Close_id,
      Conn_Close_closeCalls, Conn_Close_pauseCalls, Conn_Close_resumeCalls, Conn_Close_paused, hr, h1, h2, hw, h4, h5, h6]
    simp [hr, h1, h2, hw, h4, h5, h6] at h
  · simp [session.upgrading, session.abortUpgrade, session.abortUpgradeResume,
      Conn.NextReader, Conn.NextWriter, Conn.SetReadDeadline, Conn.SetWriteDeadline,
      session.closeReader, session.emit, ioCopy, Conn.closeWriter, session.RLock,
      session.RUnlock, Conn.Pause, Conn.Resume, Event.isSwap, Conn_Close_id,
      Conn_Close_closeCalls, Conn_Close_pauseCalls, Conn_Close_resumeCalls, Conn_Close_paused, hr, h1, h2, hw]
  · simp [session.upgrading, session.abortUpgrade, session.abortUpgradeResume,
      Conn.NextReader, Conn.NextWriter, Conn.SetReadDeadline, Conn.SetWriteDeadline,
      session.closeReader, session.emit, ioCopy, Conn.closeWriter, session.RLock,
      session.RUnlock, Conn.Pause, Conn.Resume, Event.isSwap, Conn_Close_id,
      Conn_Close_closeCalls, Conn_Close_pauseCalls, Conn_Close_resumeCalls, Conn_Close_paused, hr, h1, h2, hw]
  · simp [session.upgrading, session.abortUpgrade, session.abortUpgradeResume,
      Conn.NextReader, Conn.NextWriter, Conn.SetReadDeadline, Conn.SetWriteDeadline,
      session.closeReader, session.emit, ioCopy, Conn.closeWriter, session.RLock,
      session.RUnlock, Conn.Pause, Conn.Resume, Event.isSwap, Conn_Close_id,
      Conn_Close_closeCalls, Conn_Close_pauseCalls, Conn_Close_resumeCalls, Conn_Close_paused, hr, h1, h2, hw]

/-- Witness for C4: the polling session `exampleSession` is upgraded to
`exampleUpgradeConn`. -/
theorem upgrading_swaps_conn_and_transport_witness :
    ((exampleSession (exampleConn 1 [] [])).upgrading "websocket" exampleUpgradeConn).1.conn.id
      = exampleUpgradeConn.id ∧
    ((exampleSession (exampleConn 1 [] [])).upgrading "websocket" exampleUpgradeConn).1.transport
      = "websocket" ∧
    ((exampleSession (exampleConn 1 [] [])).upgrading "websocket"
        exampleUpgradeConn).1.log.filter Event.isSwap =
      (exampleSession (exampleConn 1 [] [])).log.filter Event.isSwap ++
        [.Lock, .SetConn exampleUpgradeConn.id, .SetTransport "websocket", .Unlock] ∧
    ((exampleSession (exampleConn 1 [] [])).upgrading "websocket" exampleUpgradeConn).2.id
      = (exampleSession (exampleConn 1 [] [])).conn.id ∧
    ((exampleSession (exampleConn 1 [] [])).upgrading "websocket" exampleUpgradeConn).2.pauseCalls
      = (exampleSession (exampleConn 1 [] [])).conn.pauseCalls + 1 ∧
    ((exampleSession (exampleConn 1 [] [])).upgrading "websocket" exampleUpgradeConn).2.closeCalls
      = (exampleSession (exampleConn 1 [] [])).conn.closeCalls + 1 ∧
    ((exampleSession (exampleConn 1 [] [])).upgrading "websocket"
        exampleUpgradeConn).2.resumeCalls
      = (exampleSession (exampleConn 1 [] [])).conn.resumeCalls ∧
    ((exampleSession (exampleConn 1 [] [])).upgrading "websocket"
        exampleUpgradeConn).1.conn.closeCalls = exampleUpgradeConn.closeCalls :=
  upgrading_swaps_conn_and_transport (exampleSession (exampleConn 1 [] [])) "websocket"
    exampleUpgradeConn rfl

/-- Witness for C5: the client sends a `NOOP` where the `UPGRADE` is due; the old conn
has been paused by then and is resumed. -/
theorem upgrading_deviation_leaves_session_witness :
    handshakeCompletes (exampleSession (exampleConn 1 [] []))
        { exampleUpgradeConn with
          reads := [.deliver { ft := .TEXT, pt := .PING, body := [112] },
                    .deliver { ft := .TEXT, pt := .NOOP, body := [] }] } = false ∧
    ((exampleSession (exampleConn 1 [] [])).upgrading "websocket"
        { exampleUpgradeConn with
          reads := [.deliver { ft := .TEXT, pt := .PING, body := [112] },
                    .deliver { ft := .TEXT, pt := .NOOP, body := [] }] }).1.conn.pauseCalls = 1 ∧
    ((exampleSession (exampleConn 1 [] [])).upgrading "websocket"
        { exampleUpgradeConn with
          reads := [.deliver { ft := .TEXT, pt := .PING, body := [112] },
                    .deliver { ft := .TEXT, pt := .NOOP, body := [] }] }).1.conn.resumeCalls = 1 ∧
    ((exampleSession (exampleConn 1 [] [])).upgrading "websocket"
        { exampleUpgradeConn with
          reads := [.deliver { ft := .TEXT, pt := .PING, body := [112] },
                    .deliver { ft := .TEXT, pt := .NOOP, body := [] }] }).1.conn.id = 1 ∧
    ((exampleSession (exampleConn 1 [] [])).upgrading "websocket"
        { exampleUpgradeConn with
          reads := [.deliver { ft := .TEXT, pt := .PING, body := [112] },
                    .deliver { ft := .TEXT, pt := .NOOP, body := [] }] }).1.transport
      = "polling" ∧
    ((exampleSession (exampleConn 1 [] [])).upgrading "websocket"
        { exampleUpgradeConn with
          reads := [.deliver { ft := .TEXT, pt := .PING, body := [112] },
                    .deliver { ft := .TEXT, pt := .NOOP, body := [] }] }).2.closeCalls = 0 + 1 :=
  have h := upgrading_deviation_leaves_session (exampleSession (exampleConn 1 [] []))
    "websocket"
    { exampleUpgradeConn with
      reads := [.deliver { ft := .TEXT, pt := .PING, body := [112] },
                .deliver { ft := .TEXT, pt := .NOOP, body := [] }] } rfl
  ⟨rfl, rfl, rfl, h.1, h.2.1, h.2.2.2.2.1⟩

/-! ### NextReader returns -/

theorem closeReader_reads (s : session) (r : Reader) :
    (s.closeReader r).2.2.conn.reads = s.conn.reads := by
  unfold session.closeReader
  by_cases hc : r.closed = true <;> by_cases hl : r.locker = true <;>
    simp [hc, hl, session.RUnlock, session.emit]

theorem closeWriter_reads (s : session) (w : Writer) :
    (s.closeWriter w).2.conn.reads = s.conn.reads := by
  unfold session.closeWriter Conn.closeWriter
  rcases hce : w.closeErr with _ | e <;> by_cases hl : w.locker = true <;>
    simp [hl, session.WriteUnlock, session.emit]

theorem nextReaderLoop_consumes (k : Nat) (err0 : Option Err) (s : session)
    (v : FrameType × PacketType × Reader) (h : (s.nextReaderLoop k err0).1 = .ok v) :
    (s.nextReaderLoop k err0).2.conn.reads.length < s.conn.reads.length := by
  induction k generalizing s err0 with
  | zero => simp [session.nextReaderLoop] at h
  | succ k ih =>
    rcases hr : s.conn.reads with _ | ⟨o, rest⟩
    · simp [session.nextReaderLoop, Conn.NextReader, hr, session.RLock, session.RUnlock,
        session.emit, Err.isTemporary, Err.closed] at h
    · rcases o with e | p
      · by_cases he : e.isTemporary = true
        · obtain ⟨s1, hs1, hreads, _⟩ := nextReaderLoop_retry k err0 s e rest hr he
          rw [hs1] at h ⊢
          have := ih (some e) s1 h
          rw [hreads] at this
          simp only [List.length_cons]
          omega
        · simp [session.nextReaderLoop, Conn.NextReader, hr, session.RLock, session.RUnlock,
            session.emit, he] at h
      · simp [session.nextReaderLoop, Conn.NextReader, hr, session.RLock, session.emit]

theorem nextReader_error_some (s s1 : session) (h : s.nextReader = (.error none, s1)) :
    False := by
  obtain ⟨n, -, -, -, -, -, h4, -⟩ := nextReaderLoop_spec 29 none s
  have h' : (s.nextReaderLoop (29 + 1) none).1 = .error none := congrArg Prod.fst h
  rw [h'] at h4
  cases hra : s.conn.readAt (n - 1) <;> rw [hra] at h4 <;> simp [readerReturn] at h4

theorem nextWriter_error_some (s s1 : session) (ft : FrameType) (pt : PacketType)
    (h : s.nextWriter ft pt = (.error none, s1)) : False := by
  obtain ⟨n, -, -, -, -, -, h4, -⟩ := nextWriterLoop_spec ft pt 29 none s
  have h' : (session.nextWriterLoop ft pt (29 + 1) none s).1 = .error none :=
    congrArg Prod.fst h
  rw [h'] at h4
  cases hwa : s.conn.writeAt (n - 1) <;> rw [hwa] at h4 <;> simp [writerReturn] at h4

/-- The fuel of `NextReaderLoop` never runs out when it exceeds the length of the read
script, and no `nil` reader or writer is used: the call returns. -/
theorem NextReaderLoop_returns (fuel : Nat) (s : session) (h : s.conn.reads.length < fuel) :
    (s.NextReaderLoop fuel).isSome = true := by
  induction fuel generalizing s with
  | zero => omega
  | succ fuel ih =>
    rw [session.NextReaderLoop]
    rcases hnr : s.nextReader with ⟨res, s1⟩
    rcases res with eo | ⟨ft, pt, r⟩
    · rcases eo with _ | e
      · exact (nextReader_error_some s s1 hnr).elim
      · simp
    · have hlt : s1.conn.reads.length < s.conn.reads.length := by
        have := nextReaderLoop_consumes 30 none s (ft, pt, r)
          (congrArg Prod.fst hnr)
        rwa [show (s.nextReaderLoop 30 none).2 = s1 from congrArg Prod.snd hnr] at this
      cases pt
      case PING =>
        simp only
        rcases hnw : s1.nextWriter ft .PONG with ⟨wres, s2⟩
        have hs2 : s2.conn.reads = s1.conn.reads := by
          have := nextWriterLoop_reads ft .PONG 30 none s1
          rwa [show (session.nextWriterLoop ft .PONG 30 none s1).2 = s2 from
            congrArg Prod.snd hnw] at this
        rcases wres with eo | w
        · rcases eo with _ | e
          · exact (nextWriter_error_some s1 s2 ft .PONG hnw).elim
          · simp
        · simp only
          rcases hcw : (s2.closeWriter (ioCopy w r).1).1 with _ | e
          · simp only [session_setDeadline_eq]
            apply ih
            rw [closeReader_reads]
            simp only
            rw [closeReader_reads, closeWriter_reads, hs2]
            omega
          · simp
      case CLOSE => simp
      case MESSAGE => simp
      all_goals
        simp only
        apply ih
        rw [closeReader_reads]
        omega

/-- `session.NextReader` returns on every session. -/
theorem NextReader_returns (s : session) : s.NextReader.isSome = true :=
  NextReaderLoop_returns _ s (Nat.lt_succ_self _)

end engineio
